import Mathlib

set_option maxRecDepth 100000

/-!
Verification of the Modbus serial master implementation in `instrument.py`
(frame codec, checksum engine, payload type codec, master-session request
builders, and the process-wide serial-port registry).

Byte strings (Python `str` used as latin-1 byte buffers) are modelled as
`List Nat`; where a property depends on the entries being actual byte
values, the theorem carries an explicit `< 256` hypothesis.  Python `int`
is modelled as `Int`; a Python numeric value (`int` or `float`) is the sum
type `PyNum`.  Fallible code (functions that raise `ValueError` /
`TypeError`) returns `Except Err α`, with one `Err` constructor per
distinct raise site (the Python code distinguishes its failures by message
text; the constructors below are named after those messages).
-/

namespace Minimalmodbus

/-- A Python byte string: one `Nat` per character (`ord` of the character). -/
abbrev ByteStr := List Nat

/-- The two Modbus modes, `MODE_RTU = 'rtu'` and `MODE_ASCII = 'ascii'`.
`_checkMode` (instrument.py:1953) only tests membership in this set, so the
mode is modelled as an enumeration. -/
inductive Mode
  | rtu
  | ascii
deriving DecidableEq, Repr

/-- Error kinds, one constructor per distinct `raise` site in instrument.py.
All of them are `ValueError`/`TypeError` in the source; they carry distinct
message templates, which is what makes them inspectable. -/
inductive Err
  /-- `_checkInt`/`_checkNumerical`: "The {desc} is too small". -/
  | intTooSmall (description : String)
  /-- `_checkInt`/`_checkNumerical`: "The {desc} is too large". -/
  | intTooLarge (description : String)
  /-- `_checkNumerical`: "The maxvalue must not be smaller than minvalue". -/
  | minMaxInconsistent (description : String)
  /-- `_checkString`: "The {desc} is too short". -/
  | strTooShort (description : String)
  /-- `_checkString`: "The {desc} is too long". -/
  | strTooLong (description : String)
  /-- `_checkString`: "The maxlength must be positive". -/
  | strMaxlengthNegative (description : String)
  /-- `_checkFunctioncode`: "Wrong function code". -/
  | wrongFunctioncode
  /-- `_extractPayload`: "Too short Modbus ... response". -/
  | tooShortResponse
  /-- `_extractPayload`: "Did not find header". -/
  | noAsciiHeader
  /-- `_extractPayload`: "Did not find footer". -/
  | noAsciiFooter
  /-- `_extractPayload`: "Stripped ASCII frames should have an even number of bytes". -/
  | oddAsciiLength
  /-- `_hexdecode`: "The input hexstring must be of even length". -/
  | oddHexstringLength
  /-- `_hexdecode`: "Hexdecode reported an error" (bad hex digit). -/
  | hexdecodeError
  /-- `_extractPayload`: "Checksum error in ... mode". -/
  | checksumError
  /-- `_extractPayload`: "Wrong return subordinate address". -/
  | wrongReturnAddress
  /-- `_extractPayload`: "The subordinate is indicating an error." (function
  code echoed with bit 7 set: the device-exception error). -/
  | slaveReportsError
  /-- `_extractPayload`: "Wrong functioncode: {got} instead of {expected}". -/
  | wrongFunctioncodeInResponse
  /-- `_pack`: "The value to send is probably out of range". -/
  | packError
  /-- `_unpack`: "The received bytestring is probably wrong". -/
  | unpackError
  /-- `_genericCommand`: one of its bespoke `ValueError` messages. -/
  | genericCommandError (msg : String)
  /-- `_checkResponseByteCount`: "Wrong given number of bytes in the response". -/
  | wrongByteCount
  /-- a failed `assert` statement in the source. -/
  | assertionFailed
  /-- a `TypeError` raise site (dynamic type violation). -/
  | typeError (description : String)
deriving DecidableEq, Repr

/-- A Python numeric value: `int` or `float`.  The float payload is kept as
the exact rational value of the IEEE double. -/
inductive PyNum
  | int (i : Int)
  | float (q : ℚ)
deriving DecidableEq, Repr

/-- The numeric value of a `PyNum` (Python `==` on numbers compares values
exactly, which is rational equality in this model). -/
def PyNum.toRat : PyNum → ℚ
  | .int i => (i : ℚ)
  | .float q => q

/-- Python `int()` applied to a real value: truncation toward zero. -/
def pyTrunc (q : ℚ) : Int :=
  if 0 ≤ q then ⌊q⌋ else -⌊-q⌋

instance {ε α : Type} [DecidableEq ε] [DecidableEq α] : DecidableEq (Except ε α) :=
  fun x y =>
    match x, y with
    | .ok a, .ok b =>
        if h : a = b then .isTrue (by rw [h])
        else .isFalse (fun hh => h (Except.ok.inj hh))
    | .error e, .error f =>
        if h : e = f then .isTrue (by rw [h])
        else .isFalse (fun hh => h (Except.error.inj hh))
    | .ok _, .error _ => .isFalse (fun hh => Except.noConfusion hh)
    | .error _, .ok _ => .isFalse (fun hh => Except.noConfusion hh)

/-! ## Argument checking helpers (instrument.py:1971-2272)

The type-checking halves of `_checkInt` / `_checkString` / `_checkBool` /
`_checkNumerical` are enforced by the Lean types of the embedding; the value
checks are reproduced below, in source order. -/

/-- `_checkInt` (instrument.py:2183) / `_checkNumerical` (instrument.py:2213)
value checks: min/max consistency, then the minimum, then the maximum. -/
def _checkInt (inputvalue : Int) (minvalue maxvalue : Option Int)
    (description : String) : Except Err Unit :=
  match minvalue, maxvalue with
  | some lo, some hi =>
      if hi < lo then .error (.minMaxInconsistent description)
      else if inputvalue < lo then .error (.intTooSmall description)
      else if hi < inputvalue then .error (.intTooLarge description)
      else .ok ()
  | some lo, none =>
      if inputvalue < lo then .error (.intTooSmall description) else .ok ()
  | none, some hi =>
      if hi < inputvalue then .error (.intTooLarge description) else .ok ()
  | none, none => .ok ()

/-- `_checkString` (instrument.py:2138) value checks.  `minlength`/`maxlength`
are `Int` because callers pass computed values such as `2 * numberOfRegisters`. -/
def _checkString (inputstring : ByteStr) (description : String)
    (minlength : Int) (maxlength : Option Int) : Except Err Unit :=
  if minlength < 0 then .error (.intTooSmall "minlength")
  else if (inputstring.length : Int) < minlength then .error (.strTooShort description)
  else match maxlength with
  | none => .ok ()
  | some maxl =>
      if maxl < 0 then .error (.strMaxlengthNegative description)
      else if maxl < minlength then .error (.strTooLong "maxlength-minlength")
      else if maxl < (inputstring.length : Int) then .error (.strTooLong description)
      else .ok ()

/-- `_checkFunctioncode` (instrument.py:1971): functioncode must be in
[1,127], and, if a list of allowed values is supplied, among them. -/
def _checkFunctioncode (functioncode : Int) (listOfAllowedValues : Option (List Int)) :
    Except Err Unit := do
  _checkInt functioncode (some 1) (some 127) "functioncode"
  match listOfAllowedValues with
  | none => .ok ()
  | some allowed =>
      if functioncode ∈ allowed then .ok () else .error .wrongFunctioncode

/-- `_checkSubordinateaddress` (instrument.py:2002): address in [0,247]. -/
def _checkSlaveaddress (slaveaddress : Int) : Except Err Unit :=
  _checkInt slaveaddress (some 0) (some 247) "subordinateaddress"

/-- `_checkRegisteraddress` (instrument.py:2018): register address in [0,0xFFFF]. -/
def _checkRegisteraddress (registeraddress : Int) : Except Err Unit :=
  _checkInt registeraddress (some 0) (some 0xFFFF) "registeraddress"

/-! ## struct pack/unpack (instrument.py:1537-1602)

The source builds a `struct` format code from an endianness character
(`>` or `<`) and a width/signedness character (`H`/`h`/`L`/`l`); the
combinations actually constructed are enumerated here.  `struct.pack`
raises for an out-of-range value; `_pack` converts that into `ValueError`. -/

/-- The struct format codes built by the payload codec. -/
inductive StructFmt
  | beU16
  | beS16
  | leU16
  | leS16
  | beU32
  | beS32
deriving DecidableEq, Repr

/-- `_pack` (instrument.py:1537): big/little-endian 16/32-bit pack with the
range check performed by `struct.pack` (out of range raises `ValueError`). -/
def _pack : StructFmt → Int → Except Err ByteStr
  | .beU16, i =>
      if 0 ≤ i ∧ i ≤ 65535 then .ok [i.toNat / 256, i.toNat % 256]
      else .error .packError
  | .leU16, i =>
      if 0 ≤ i ∧ i ≤ 65535 then .ok [i.toNat % 256, i.toNat / 256]
      else .error .packError
  | .beS16, i =>
      if -32768 ≤ i ∧ i ≤ 32767 then
        .ok [(i % 65536).toNat / 256, (i % 65536).toNat % 256]
      else .error .packError
  | .leS16, i =>
      if -32768 ≤ i ∧ i ≤ 32767 then
        .ok [(i % 65536).toNat % 256, (i % 65536).toNat / 256]
      else .error .packError
  | .beU32, i =>
      if 0 ≤ i ∧ i ≤ 4294967295 then
        .ok [i.toNat / 16777216, i.toNat / 65536 % 256, i.toNat / 256 % 256, i.toNat % 256]
      else .error .packError
  | .beS32, i =>
      if -2147483648 ≤ i ∧ i ≤ 2147483647 then
        .ok [(i % 4294967296).toNat / 16777216, (i % 4294967296).toNat / 65536 % 256,
             (i % 4294967296).toNat / 256 % 256, (i % 4294967296).toNat % 256]
      else .error .packError

/-- `_unpack` (instrument.py:1570): inverse of `_pack`; wrong length or a
character that is not a byte makes `struct.unpack` (resp. the latin-1
encoding) fail. -/
def _unpack : StructFmt → ByteStr → Except Err Int
  | .beU16, [a, b] =>
      if a < 256 ∧ b < 256 then .ok ((a : Int) * 256 + b) else .error .unpackError
  | .leU16, [a, b] =>
      if a < 256 ∧ b < 256 then .ok ((b : Int) * 256 + a) else .error .unpackError
  | .beS16, [a, b] =>
      if a < 256 ∧ b < 256 then
        .ok (if (a : Int) * 256 + b ≤ 32767 then (a : Int) * 256 + b
             else (a : Int) * 256 + b - 65536)
      else .error .unpackError
  | .leS16, [a, b] =>
      if a < 256 ∧ b < 256 then
        .ok (if (b : Int) * 256 + a ≤ 32767 then (b : Int) * 256 + a
             else (b : Int) * 256 + a - 65536)
      else .error .unpackError
  | .beU32, [a, b, c, d] =>
      if a < 256 ∧ b < 256 ∧ c < 256 ∧ d < 256 then
        .ok (((a : Int) * 256 + b) * 65536 + ((c : Int) * 256 + d))
      else .error .unpackError
  | .beS32, [a, b, c, d] =>
      if a < 256 ∧ b < 256 ∧ c < 256 ∧ d < 256 then
        .ok (if ((a : Int) * 256 + b) * 65536 + ((c : Int) * 256 + d) ≤ 2147483647 then
               ((a : Int) * 256 + b) * 65536 + ((c : Int) * 256 + d)
             else ((a : Int) * 256 + b) * 65536 + ((c : Int) * 256 + d) - 4294967296)
      else .error .unpackError
  | _, _ => .error .unpackError

/-! ## Payload type codec (instrument.py:1142-1534) -/

/-- `_numToOneByteString` (instrument.py:1142): one byte, value in [0,255]. -/
def _numToOneByteString (inputvalue : Int) : Except Err ByteStr := do
  _checkInt inputvalue (some 0) (some 0xFF) "inputvalue"
  pure [inputvalue.toNat]

/-- `_numToTwoByteString` (instrument.py:1160).  The scaling step in the
source is `integer = int(float(value) * multiplier)`; here it is modelled by
exact rational arithmetic followed by truncation toward zero.  This agrees
with the CPython double computation whenever `value` and `value * multiplier`
are exactly representable (in particular whenever `value` is an integer with
`|value * multiplier| < 2^53`, or `value` is a dyadic rational such as `3/2`
with a product of the same form), which covers every input at which the
theorems below evaluate it. -/
def _numToTwoByteString (value : PyNum) (numberOfDecimals : Int)
    (lsbFirst signed : Bool) : Except Err ByteStr := do
  _checkInt numberOfDecimals (some 0) none "number of decimals"
  let multiplier : ℚ := (10 : ℚ) ^ numberOfDecimals.toNat
  let integer : Int := pyTrunc (value.toRat * multiplier)
  let fmt : StructFmt :=
    match lsbFirst, signed with
    | true, true => .leS16
    | true, false => .leU16
    | false, true => .beS16
    | false, false => .beU16
  let outstring ← _pack fmt integer
  if outstring.length = 2 then pure outstring else .error .assertionFailed

/-- `_twoByteStringToNum` (instrument.py:1220).  With `numberOfDecimals = 0`
the Python function returns the register as `int`; otherwise it returns
`fullregister / float(divisor)`, a `float`.  The division is modelled as the
exact rational quotient; the IEEE double produced by CPython is the nearest
double to that rational, and the two agree at every input where a theorem
below compares the result with an exact value (there the quotient is an
integer of magnitude < 2^53, hence exactly representable). -/
def _twoByteStringToNum (bytestring : ByteStr) (numberOfDecimals : Int)
    (signed : Bool) : Except Err PyNum := do
  _checkString bytestring "bytestring" 2 (some 2)
  _checkInt numberOfDecimals (some 0) none "number of decimals"
  let fullregister ← _unpack (if signed then .beS16 else .beU16) bytestring
  if numberOfDecimals = 0 then
    pure (.int fullregister)
  else
    pure (.float ((fullregister : ℚ) / (10 : ℚ) ^ numberOfDecimals.toNat))

/-- `_longToBytestring` (instrument.py:1266): 32-bit big-endian pack.  The
source's `_checkInt(value, ...)` raises `TypeError` for a float, so the value
parameter is typed `Int`. -/
def _longToBytestring (value : Int) (signed : Bool) (numberOfRegisters : Int) :
    Except Err ByteStr := do
  _checkInt numberOfRegisters (some 2) (some 2) "number of registers"
  let outstring ← _pack (if signed then .beS32 else .beU32) value
  if outstring.length = 4 then pure outstring else .error .assertionFailed

/-- `_bytestringToLong` (instrument.py:1298): 32-bit big-endian unpack. -/
def _bytestringToLong (bytestring : ByteStr) (signed : Bool)
    (numberOfRegisters : Int) : Except Err Int := do
  _checkString bytestring "byte string" 4 (some 4)
  _checkInt numberOfRegisters (some 2) (some 2) "number of registers"
  _unpack (if signed then .beS32 else .beU32) bytestring

/-- `_textstringToBytestring` (instrument.py:1412): length check, then
`ljust` padding with spaces (0x20) up to `2 * numberOfRegisters`. -/
def _textstringToBytestring (inputstring : ByteStr) (numberOfRegisters : Int) :
    Except Err ByteStr := do
  _checkInt numberOfRegisters (some 1) none "number of registers"
  let maxCharacters : Int := 2 * numberOfRegisters
  _checkString inputstring "input string" 1 (some maxCharacters)
  let bytestring := inputstring ++ List.replicate (maxCharacters.toNat - inputstring.length) 32
  if bytestring.length = maxCharacters.toNat then pure bytestring
  else .error .assertionFailed

/-- `_bytestringToTextstring` (instrument.py:1441): checks the exact length,
returns the byte string unmodified. -/
def _bytestringToTextstring (bytestring : ByteStr) (numberOfRegisters : Int) :
    Except Err ByteStr := do
  _checkInt numberOfRegisters (some 1) none "number of registers"
  let maxCharacters : Int := 2 * numberOfRegisters
  _checkString bytestring "byte string" maxCharacters (some maxCharacters)
  pure bytestring

/-- The element-wise range check loop of `_valuelistToBytestring`
(instrument.py:1492): the first out-of-range element raises. -/
def checkValuelist : List Int → Except Err Unit
  | [] => .ok ()
  | v :: rest => do
      _checkInt v (some 0) (some 65535) "elements in the input value list"
      checkValuelist rest

/-- The accumulation loop of `_valuelistToBytestring` (instrument.py:1500):
`bytestring += _numToTwoByteString(value, signed=False)`. -/
def valuelistBytes : List Int → Except Err ByteStr
  | [] => .ok []
  | v :: rest => do
      let b ← _numToTwoByteString (.int v) 0 false false
      let r ← valuelistBytes rest
      pure (b ++ r)

/-- `_valuelistToBytestring` (instrument.py:1468). -/
def _valuelistToBytestring (valuelist : List Int) (numberOfRegisters : Int) :
    Except Err ByteStr := do
  _checkInt numberOfRegisters (some 1) none "number of registers"
  checkValuelist valuelist
  _checkInt valuelist.length (some numberOfRegisters) (some numberOfRegisters)
    "length of the list"
  let bytestring ← valuelistBytes valuelist
  if (bytestring.length : Int) = 2 * numberOfRegisters then pure bytestring
  else .error .assertionFailed

/-- The extraction loop of `_bytestringToValuelist` (instrument.py:1529):
the i-th register is `bytestring[2*i : 2*i+2]`, decoded unsigned with no
decimals (which always yields a Python `int`). -/
def valuesFromBytes : Nat → ByteStr → Except Err (List Int)
  | 0, _ => .ok []
  | k + 1, s => do
      let v ← _twoByteStringToNum (s.take 2) 0 false
      let rest ← valuesFromBytes k (s.drop 2)
      match v with
      | .int i => pure (i :: rest)
      | .float _ => .error (.typeError "unreachable: numberOfDecimals = 0 yields int")

/-- `_bytestringToValuelist` (instrument.py:1508). -/
def _bytestringToValuelist (bytestring : ByteStr) (numberOfRegisters : Int) :
    Except Err (List Int) := do
  _checkInt numberOfRegisters (some 1) none "number of registers"
  let numberOfBytes : Int := 2 * numberOfRegisters
  _checkString bytestring "byte string" numberOfBytes (some numberOfBytes)
  valuesFromBytes numberOfRegisters.toNat bytestring

/-! ## Bit manipulation and checksum engine (instrument.py:1819-1950) -/

/-- `_XOR` (instrument.py:1819). -/
def _XOR (integer1 integer2 : Nat) : Nat := integer1 ^^^ integer2

/-- `_setBitOn` (instrument.py:1835). -/
def _setBitOn (x : Nat) (bitNum : Nat) : Nat := x ||| (1 <<< bitNum)

/-- `_rightshift` (instrument.py:1855): the shifted value and the carry bit. -/
def _rightshift (inputInteger : Nat) : Nat × Nat :=
  (inputInteger >>> 1, inputInteger &&& 1)

/-- One iteration of the inner loop of `_calculateCrcString`
(instrument.py:1907-1910): right-shift, and XOR with the polynomial 0xA001
when the carry bit is 1. -/
def crcRound (register : Nat) : Nat :=
  let p := _rightshift register
  if p.2 = 1 then _XOR p.1 0xA001 else p.1

/-- One iteration of the outer loop of `_calculateCrcString`
(instrument.py:1901-1910): XOR the character in, then 8 shift rounds. -/
def crcProcessByte (register character : Nat) : Nat :=
  crcRound^[8] (_XOR register character)

/-- The final CRC register of `_calculateCrcString` (instrument.py:1881):
initial register 0xFFFF, then one `crcProcessByte` per input character. -/
def crcRegisterOf (inputstring : ByteStr) : Nat :=
  inputstring.foldl crcProcessByte 0xFFFF

/-- `_calculateCrcString` (instrument.py:1881): the CRC register serialized
least-significant byte first, `_numToTwoByteString(register, LsbFirst=True)`.
The pack step is inlined ( `[register % 256, register / 256]` );
`calculateCrcString_eq_numToTwoByteString` below proves the inlining correct
whenever the input is a byte string (the register then stays below 2^16, so
the pack's range check passes). -/
def _calculateCrcString (inputstring : ByteStr) : ByteStr :=
  [crcRegisterOf inputstring % 256, crcRegisterOf inputstring / 256]

/-- `_calculateLrcString` (instrument.py:1920): `((sum ^ 0xFF) + 1) & 0xFF`,
serialized through `_numToOneByteString` (whose [0,255] check always passes
because of the final mask — see `calculateLrcString_eq_numToOneByteString`). -/
def _calculateLrcString (inputstring : ByteStr) : ByteStr :=
  [(((inputstring.foldl (· + ·) 0) ^^^ 0xFF) + 1) &&& 0xFF]

/-! ## Hex encoding and decoding (instrument.py:1605-1669) -/

/-- The uppercase hex digit character for a nibble, as produced by the
format string `'{0:02X}'`. -/
def hexChar (n : Nat) : Nat := if n < 10 then 48 + n else 55 + n

/-- `'{0:02X}'.format(b)`: two uppercase hex characters for a byte value
(zero-padded); values ≥ 256 print with more digits. -/
def pyHexFmt02X (b : Nat) : ByteStr :=
  if b < 256 then [hexChar (b / 16), hexChar (b % 16)]
  else (Nat.toDigits 16 b).map (fun c => c.toUpper.toNat)

/-- `_hexencode` (instrument.py:1605): formats each character with
`'{0:02X}'` and concatenates. -/
def _hexencode (bytestring : ByteStr) : ByteStr :=
  bytestring.flatMap pyHexFmt02X

/-- The value of a hex digit character as accepted by
`binascii.unhexlify`: `0`-`9`, `A`-`F` and also lowercase `a`-`f`. -/
def hexVal (c : Nat) : Option Nat :=
  if 48 ≤ c ∧ c ≤ 57 then some (c - 48)
  else if 65 ≤ c ∧ c ≤ 70 then some (c - 55)
  else if 97 ≤ c ∧ c ≤ 102 then some (c - 87)
  else none

/-- `binascii.unhexlify` on an even-length string: consume two hex digits
per output byte; any non-hex-digit character fails. -/
def unhexlify : ByteStr → Option ByteStr
  | [] => some []
  | [_] => none
  | c1 :: c2 :: rest =>
      match hexVal c1, hexVal c2, unhexlify rest with
      | some hi, some lo, some r => some ((16 * hi + lo) :: r)
      | _, _, _ => none

/-- `_hexdecode` (instrument.py:1631): reject odd length, then
`binascii.unhexlify` (its failure is re-raised as `TypeError`). -/
def _hexdecode (hexstring : ByteStr) : Except Err ByteStr :=
  if hexstring.length % 2 ≠ 0 then .error .oddHexstringLength
  else match unhexlify hexstring with
    | some s => .ok s
    | none => .error .hexdecodeError

/-! ## Frame codec (instrument.py:880-1044) -/

/-- `_embedPayload` (instrument.py:880): validate the subordinate address,
mode and function code, then build
`address byte + functioncode byte + payload` and wrap it:
RTU appends the CRC; ASCII hex-encodes and wraps with `':'` (58) and
`'\r\n'` (13, 10). -/
def _embedPayload (slaveaddress : Int) (mode : Mode) (functioncode : Int)
    (payloaddata : ByteStr) : Except Err ByteStr := do
  _checkSlaveaddress slaveaddress
  _checkFunctioncode functioncode none
  _checkString payloaddata "payload" 0 none
  let a ← _numToOneByteString slaveaddress
  let f ← _numToOneByteString functioncode
  let firstPart := a ++ f ++ payloaddata
  match mode with
  | .ascii =>
      pure ([58] ++ _hexencode firstPart ++ _hexencode (_calculateLrcString firstPart)
            ++ [13, 10])
  | .rtu =>
      pure (firstPart ++ _calculateCrcString firstPart)

/-- `_extractPayload` (instrument.py:921): validate lengths, ASCII
header/footer (then strip and hex-decode), checksum, subordinate address and
function code, and return `response[2 : len - numberOfChecksumBytes]`.
Python's `ord(response[i])` is total here because every reachable path has
`response` of length ≥ 3; the model uses `headD`/`getD` with default 0. -/
def _extractPayload (response : ByteStr) (slaveaddress : Int) (mode : Mode)
    (functioncode : Int) : Except Err ByteStr := do
  _checkString response "response" 0 none
  _checkSlaveaddress slaveaddress
  _checkFunctioncode functioncode none
  match mode with
  | .ascii =>
      if response.length < 9 then throw .tooShortResponse else pure ()
  | .rtu =>
      if response.length < 4 then throw .tooShortResponse else pure ()
  let resp ← (match mode with
    | .ascii => do
        if response.headD 0 ≠ 58 then throw .noAsciiHeader
        else if response.drop (response.length - 2) ≠ [13, 10] then throw .noAsciiFooter
        else
          let stripped := (response.drop 1).take (response.length - 3)
          if stripped.length % 2 ≠ 0 then throw .oddAsciiLength
          else _hexdecode stripped
    | .rtu => pure response)
  let numberOfChecksumBytes := match mode with | .ascii => 1 | .rtu => 2
  let receivedChecksum := resp.drop (resp.length - numberOfChecksumBytes)
  let responseWithoutChecksum := resp.take (resp.length - numberOfChecksumBytes)
  let calculatedChecksum :=
    (match mode with | .ascii => _calculateLrcString | .rtu => _calculateCrcString)
      responseWithoutChecksum
  if receivedChecksum ≠ calculatedChecksum then throw .checksumError
  else
  let responseaddress := resp.headD 0
  if (responseaddress : Int) ≠ slaveaddress then throw .wrongReturnAddress
  else
  let receivedFunctioncode := resp.getD 1 0
  if receivedFunctioncode = _setBitOn functioncode.toNat 7 then throw .slaveReportsError
  else if (receivedFunctioncode : Int) ≠ functioncode then throw .wrongFunctioncodeInResponse
  else
  let lastDatabyteNumber := resp.length - numberOfChecksumBytes
  pure ((resp.take lastDatabyteNumber).drop 2)

/-! ## Master-session request builders

Each facade below is the named public operation followed by the
request-building half of `_genericCommand` (instrument.py:537-655)
specialized to the arguments that operation passes (so statically dead
branches of `_genericCommand` are omitted), then
`_performCommand` (instrument.py:715) down to `_embedPayload`.  The
returned byte string is the exact frame `_communicate` would write to the
serial port; an `.error` result means a `ValueError`/`TypeError` was raised
before any byte reached the transport. -/

/-- `read_register` (instrument.py:213) with `_genericCommand(functioncode,
registeraddress, numberOfDecimals=..., signed=...)`: `value = None`,
`numberOfRegisters = 1`, `payloadformat` defaults to `'register'`
(instrument.py:552); the combination checks at instrument.py:564-607 all
pass for that configuration ( `signed` is accepted for the register format,
`numberOfDecimals > 0` is accepted for the register format, functioncode
3/4 has no value checks), and the request payload is
`registeraddress(2) + numberOfRegisters(2)` (instrument.py:614-616). -/
def read_register (address : Int) (mode : Mode) (registeraddress : Int)
    (numberOfDecimals : Int) (functioncode : Int) (signed : Bool) :
    Except Err ByteStr := do
  _checkFunctioncode functioncode (some [3, 4])
  _checkInt numberOfDecimals (some 0) (some 10) "number of decimals"
  let _ := signed  -- _checkBool(signed): enforced by the type
  _checkFunctioncode functioncode (some [1, 2, 3, 4, 5, 6, 15, 16])
  _checkRegisteraddress registeraddress
  _checkInt numberOfDecimals (some 0) none "number of decimals"
  _checkInt 1 (some 1) (some 255) "number of registers"
  let p1 ← _numToTwoByteString (.int registeraddress) 0 false false
  let p2 ← _numToTwoByteString (.int 1) 0 false false
  _checkFunctioncode functioncode none
  _checkString (p1 ++ p2) "payload" 0 none
  _embedPayload address mode functioncode (p1 ++ p2)

/-- `write_string` (instrument.py:404) with `_genericCommand(16,
registeraddress, textstring, numberOfRegisters=..., payloadformat='string')`:
the facade length check (instrument.py:428), the `_genericCommand` input
checks, the string value check at instrument.py:597, then the request
payload `registeraddress(2) + numberOfRegisters(2) + bytecount(1) +
registerdata` where `registerdata = _textstringToBytestring(...)`
(instrument.py:632-652), with the `assert len(registerdata) ==
numberOfRegisterBytes` of instrument.py:648. -/
def write_string (address : Int) (mode : Mode) (registeraddress : Int)
    (textstring : ByteStr) (numberOfRegisters : Int) : Except Err ByteStr := do
  _checkInt numberOfRegisters (some 1) none "number of registers for write string"
  _checkString textstring "input string" 1 (some (2 * numberOfRegisters))
  _checkFunctioncode 16 (some [1, 2, 3, 4, 5, 6, 15, 16])
  _checkRegisteraddress registeraddress
  _checkInt 0 (some 0) none "number of decimals"
  _checkInt numberOfRegisters (some 1) (some 255) "number of registers"
  _checkString textstring "input string" 1 (some (2 * numberOfRegisters))
  let registerdata ← _textstringToBytestring textstring numberOfRegisters
  if (registerdata.length : Int) ≠ 2 * numberOfRegisters then throw .assertionFailed
  else
  let p1 ← _numToTwoByteString (.int registeraddress) 0 false false
  let p2 ← _numToTwoByteString (.int numberOfRegisters) 0 false false
  let p3 ← _numToOneByteString (2 * numberOfRegisters)
  _checkFunctioncode 16 none
  _checkString (p1 ++ p2 ++ p3 ++ registerdata) "payload" 0 none
  _embedPayload address mode 16 (p1 ++ p2 ++ p3 ++ registerdata)

/-- `write_long` (instrument.py:286) with `_genericCommand(16,
registeraddress, value, numberOfRegisters=2, signed=..., payloadformat='long')`:
the facade range check `_checkInt(value, -2147483648, 4294967295)`
(instrument.py:311) accepts the union of the signed and unsigned 32-bit
ranges regardless of `signed`; the signedness-specific range is enforced
only inside `_longToBytestring` → `_pack` (instrument.py:1293/1559), still
before `_performCommand` sends anything. -/
def write_long (address : Int) (mode : Mode) (registeraddress : Int)
    (value : Int) (signed : Bool) : Except Err ByteStr := do
  _checkInt value (some (-2147483648)) (some 4294967295) "input value"
  _checkFunctioncode 16 (some [1, 2, 3, 4, 5, 6, 15, 16])
  _checkRegisteraddress registeraddress
  _checkInt 0 (some 0) none "number of decimals"
  _checkInt 2 (some 1) (some 255) "number of registers"
  let registerdata ← _longToBytestring value signed 2
  if (registerdata.length : Int) ≠ 4 then throw .assertionFailed
  else
  let p1 ← _numToTwoByteString (.int registeraddress) 0 false false
  let p2 ← _numToTwoByteString (.int 2) 0 false false
  let p3 ← _numToOneByteString 4
  _checkFunctioncode 16 none
  _checkString (p1 ++ p2 ++ p3 ++ registerdata) "payload" 0 none
  _embedPayload address mode 16 (p1 ++ p2 ++ p3 ++ registerdata)

/-- The response-decoding half of `_genericCommand` for `read_string`
(instrument.py:658-693, functioncode 3/4, payloadformat `'string'`):
`_checkResponseByteCount` (the first payload byte must equal the remaining
length, instrument.py:2034), strip that byte-count byte, check the
register-data length, then `_bytestringToTextstring` (which returns the raw
padded bytes unmodified). -/
def read_string_decode (payloadFromSlave : ByteStr) (numberOfRegisters : Int) :
    Except Err ByteStr := do
  _checkString payloadFromSlave "payload" 1 none
  if (payloadFromSlave.headD 0 : Int) ≠ (payloadFromSlave.length : Int) - 1 then
    throw .wrongByteCount
  else
  let registerdata := payloadFromSlave.drop 1
  if (registerdata.length : Int) ≠ 2 * numberOfRegisters then
    throw (.genericCommandError "registerdata length does not match number of register bytes")
  else
  _bytestringToTextstring registerdata numberOfRegisters

/-! ## The port registry (instrument.py:21, 68-74) -/

/-- The process state relevant to `_SERIALPORTS`: the registry (port name to
connection identity) and a supply of fresh connection identities (each
`serial.Serial(...)` call yields a new object). -/
structure PortState where
  registry : List (String × Nat)
  nextConn : Nat
deriving DecidableEq, Repr

/-- Dictionary lookup in the registry. -/
def lookupPort : List (String × Nat) → String → Option Nat
  | [], _ => none
  | (q, c) :: rest, p => if q = p then some c else lookupPort rest p

/-- `Instrument.__init__` (instrument.py:68-74) restricted to its effect on
`_SERIALPORTS` and the connection assigned to the new instrument: if the
port is not registered, create a fresh connection object and register it;
otherwise reuse the registered object (pySerial `Serial` defines no
`__bool__`/`__len__`, so the `not _SERIALPORTS[port]` test is never true
for a registered object; reopening a closed object does not change its
identity). -/
def constructInstrument (st : PortState) (port : String) : PortState × Nat :=
  match lookupPort st.registry port with
  | some c => (st, c)
  | none => (⟨(port, st.nextConn) :: st.registry, st.nextConn + 1⟩, st.nextConn)

/-- Run a sequence of `Instrument` constructions, returning the (port,
connection) pair assigned to each in order. -/
def runConstructions : PortState → List String → List (String × Nat)
  | _, [] => []
  | st, p :: ps =>
      let r := constructInstrument st p
      (p, r.2) :: runConstructions r.1 ps

/-- The registry state at interpreter start: `_SERIALPORTS = {}`. -/
def initialPortState : PortState := ⟨[], 0⟩

/-- The registry state after a sequence of constructions has run. -/
def finalPortState : PortState → List String → PortState
  | st, [] => st
  | st, p :: ps => finalPortState (constructInstrument st p).1 ps

/-! ## The spec's register-encoding formula (for the refinement claim C5) -/

/-- The encoding formula stated by the spec (spec.md §4.2): "`value_bytes =
pack_big_endian(round(value * 10^decimals), signed)`" — with `round`, not
truncation.  Defined only to be compared against `_numToTwoByteString`. -/
def specRegisterEncode (value : ℚ) (numberOfDecimals : Nat) (signed : Bool) :
    Except Err ByteStr :=
  _pack (if signed then .beS16 else .beU16) (round (value * (10 : ℚ) ^ numberOfDecimals))

/-! ## Helper definitions for the statements and proofs -/

/-- The inverse of one CRC shift round on 16-bit states: bit 15 of the
output tells whether the polynomial was XOR-ed in (the plain shifted value
has bit 15 clear, and 0xA001 has bit 15 set). -/
def crcRoundInv (x : Nat) : Nat :=
  if x.testBit 15 then 2 * (x ^^^ 0xA001) + 1 else 2 * x

/-- The 16-bit value described by two big-endian bytes under the chosen
signedness (the value `struct.unpack('>H'/'>h')` produces). -/
def unpack16 (signed : Bool) (a b : Nat) : Int :=
  if signed ∧ 32767 < (a : Int) * 256 + b then (a : Int) * 256 + b - 65536
  else (a : Int) * 256 + b

/-- A frame carrying `content` with a correct checksum and correct framing
for the given mode — exactly the shape `_embedPayload` produces, and the
set of responses that pass `_extractPayload`'s length, framing and checksum
checks. -/
def wellFormedFrame (mode : Mode) (content : ByteStr) : ByteStr :=
  match mode with
  | .rtu => content ++ _calculateCrcString content
  | .ascii => [58] ++ _hexencode content ++ _hexencode (_calculateLrcString content) ++ [13, 10]

/-- `frame` with bit `j` of the byte at position `i` flipped. -/
def flipBit (frame : ByteStr) (i j : Nat) : ByteStr :=
  frame.take i ++ [frame.getD i 0 ^^^ (1 <<< j)] ++ frame.drop (i + 1)

/-! ## Monadic reduction lemmas -/

@[simp] theorem ok_bind {α β : Type} (a : α) (f : α → Except Err β) :
    (Except.ok a >>= f) = f a := rfl

@[simp] theorem ok_bind_expl {α β : Type} (a : α) (f : α → Except Err β) :
    (Except.ok a : Except Err α).bind f = f a := rfl

@[simp] theorem error_bind {α β : Type} (e : Err) (f : α → Except Err β) :
    ((Except.error e : Except Err α) >>= f) = .error e := rfl

@[simp] theorem pure_eq_ok {α : Type} (a : α) : (pure a : Except Err α) = .ok a := rfl

@[simp] theorem throw_eq_error {α : Type} (e : Err) :
    (throw e : Except Err α) = .error e := rfl

/-! ## Characterizations of the argument checks -/

theorem checkInt_both (v lo hi : Int) (d : String) (hc : lo ≤ hi) :
    _checkInt v (some lo) (some hi) d =
      if v < lo then .error (.intTooSmall d)
      else if hi < v then .error (.intTooLarge d)
      else .ok () := by
  simp only [_checkInt, if_neg (not_lt.mpr hc)]

theorem checkInt_both_ok {v lo hi : Int} (d : String) (h1 : lo ≤ v) (h2 : v ≤ hi) :
    _checkInt v (some lo) (some hi) d = .ok () := by
  simp only [_checkInt]
  rw [if_neg (by omega), if_neg (by omega), if_neg (by omega)]

theorem checkInt_min_ok {v lo : Int} (d : String) (h1 : lo ≤ v) :
    _checkInt v (some lo) none d = .ok () := by
  simp only [_checkInt]
  rw [if_neg (by omega)]

theorem checkString_min0 (s : ByteStr) (d : String) :
    _checkString s d 0 none = .ok () := by
  simp [_checkString]

theorem checkString_minmax_ok {s : ByteStr} {lo hi : Int} (d : String)
    (h0 : 0 ≤ lo) (hc : lo ≤ hi) (h1 : lo ≤ (s.length : Int)) (h2 : (s.length : Int) ≤ hi) :
    _checkString s d lo (some hi) = .ok () := by
  simp only [_checkString]
  rw [if_neg (by omega), if_neg (by omega), if_neg (by omega), if_neg (by omega),
    if_neg (by omega)]

theorem checkString_exact_ok {s : ByteStr} {n : Int} (d : String)
    (h0 : 0 ≤ n) (h : (s.length : Int) = n) :
    _checkString s d n (some n) = .ok () :=
  checkString_minmax_ok d h0 le_rfl (by omega) (by omega)

theorem checkSlaveaddress_ok {a : Int} (h1 : 0 ≤ a) (h2 : a ≤ 247) :
    _checkSlaveaddress a = .ok () :=
  checkInt_both_ok _ h1 h2

theorem checkRegisteraddress_ok {a : Int} (h1 : 0 ≤ a) (h2 : a ≤ 65535) :
    _checkRegisteraddress a = .ok () :=
  checkInt_both_ok _ h1 h2

theorem checkFunctioncode_none_ok {fc : Int} (h1 : 1 ≤ fc) (h2 : fc ≤ 127) :
    _checkFunctioncode fc none = .ok () := by
  simp only [_checkFunctioncode, checkInt_both_ok "functioncode" h1 h2, ok_bind]

theorem checkFunctioncode_some_ok {fc : Int} {allowed : List Int}
    (h1 : 1 ≤ fc) (h2 : fc ≤ 127) (h3 : fc ∈ allowed) :
    _checkFunctioncode fc (some allowed) = .ok () := by
  simp only [_checkFunctioncode, checkInt_both_ok "functioncode" h1 h2, ok_bind]
  rw [if_pos h3]

/-! ## CRC register facts -/

theorem crcRound_even {s : Nat} (h : s % 2 = 0) : crcRound s = s / 2 := by
  simp [crcRound, _rightshift, _XOR, Nat.and_one_is_mod, h, Nat.shiftRight_one]

theorem crcRound_odd {s : Nat} (h : s % 2 = 1) : crcRound s = (s / 2) ^^^ 0xA001 := by
  simp [crcRound, _rightshift, _XOR, Nat.and_one_is_mod, h, Nat.shiftRight_one]

theorem shiftRight_one_xor (a b : Nat) : (a ^^^ b) >>> 1 = (a >>> 1) ^^^ (b >>> 1) := by
  apply Nat.eq_of_testBit_eq
  intro i
  simp [Nat.testBit_shiftRight, Nat.testBit_xor]

theorem crcRound_linear (a b : Nat) : crcRound (a ^^^ b) = crcRound a ^^^ crcRound b := by
  have hand : (a ^^^ b) % 2 = (a % 2) ^^^ (b % 2) := by
    rw [← Nat.and_one_is_mod, ← Nat.and_one_is_mod, ← Nat.and_one_is_mod]
    exact Nat.and_xor_distrib_right
  rcases Nat.mod_two_eq_zero_or_one a with ha | ha <;>
    rcases Nat.mod_two_eq_zero_or_one b with hb | hb
  · have hab : (a ^^^ b) % 2 = 0 := by rw [hand, ha, hb]; decide
    rw [crcRound_even hab, crcRound_even ha, crcRound_even hb,
      ← Nat.shiftRight_one, ← Nat.shiftRight_one, ← Nat.shiftRight_one,
      shiftRight_one_xor]
  · have hab : (a ^^^ b) % 2 = 1 := by rw [hand, ha, hb]; decide
    rw [crcRound_odd hab, crcRound_even ha, crcRound_odd hb,
      ← Nat.shiftRight_one, ← Nat.shiftRight_one, ← Nat.shiftRight_one,
      shiftRight_one_xor, Nat.xor_assoc]
  · have hab : (a ^^^ b) % 2 = 1 := by rw [hand, ha, hb]; decide
    rw [crcRound_odd hab, crcRound_odd ha, crcRound_even hb,
      ← Nat.shiftRight_one, ← Nat.shiftRight_one, ← Nat.shiftRight_one,
      shiftRight_one_xor]
    rw [Nat.xor_assoc, Nat.xor_assoc, Nat.xor_comm (b >>> 1) 0xA001]
  · have hab : (a ^^^ b) % 2 = 0 := by rw [hand, ha, hb]; decide
    rw [crcRound_even hab, crcRound_odd ha, crcRound_odd hb,
      ← Nat.shiftRight_one, ← Nat.shiftRight_one, ← Nat.shiftRight_one,
      shiftRight_one_xor]
    rw [Nat.xor_assoc, ← Nat.xor_assoc 0xA001, Nat.xor_comm 0xA001 (b >>> 1),
      Nat.xor_assoc, Nat.xor_self, Nat.xor_zero]

theorem crcRound_iterate_linear (n : Nat) (a b : Nat) :
    crcRound^[n] (a ^^^ b) = crcRound^[n] a ^^^ crcRound^[n] b := by
  induction n generalizing a b with
  | zero => rfl
  | succ k ih =>
      rw [Function.iterate_succ_apply, Function.iterate_succ_apply,
        Function.iterate_succ_apply, crcRound_linear, ih]

theorem crcProcessByte_xor (s d c : Nat) :
    crcProcessByte (s ^^^ d) c = crcProcessByte s c ^^^ crcRound^[8] d := by
  unfold crcProcessByte _XOR
  rw [Nat.xor_comm s d, Nat.xor_assoc, Nat.xor_comm d (s ^^^ c),
    ← crcRound_iterate_linear]

theorem foldl_crc_xor (l : List Nat) (s d : Nat) :
    l.foldl crcProcessByte (s ^^^ d) =
      l.foldl crcProcessByte s ^^^ crcRound^[8 * l.length] d := by
  induction l generalizing s d with
  | nil => simp
  | cons c t ih =>
      simp only [List.foldl_cons, List.length_cons]
      rw [crcProcessByte_xor, ih]
      have : 8 * (t.length + 1) = 8 * t.length + 8 := by ring
      rw [this, Function.iterate_add_apply]

theorem xor_lt_65536 {a b : Nat} (ha : a < 65536) (hb : b < 65536) :
    a ^^^ b < 65536 := by
  have h16 : (65536 : ℕ) = 2 ^ 16 := by norm_num
  rw [h16] at ha hb ⊢
  exact Nat.xor_lt_two_pow ha hb

theorem crcRound_lt {s : Nat} (h : s < 65536) : crcRound s < 65536 := by
  have hhalf : s >>> 1 < 65536 := by
    rw [Nat.shiftRight_one]
    omega
  by_cases hc : s % 2 = 1
  · rw [crcRound_odd hc, ← Nat.shiftRight_one]
    exact xor_lt_65536 hhalf (by norm_num)
  · rw [crcRound_even (by omega), ← Nat.shiftRight_one]
    exact hhalf

theorem crcRound_iterate_lt {s : Nat} (n : Nat) (h : s < 65536) :
    crcRound^[n] s < 65536 := by
  induction n generalizing s with
  | zero => exact h
  | succ k ih =>
      rw [Function.iterate_succ_apply]
      exact ih (crcRound_lt h)

theorem crcRoundInv_round {s : Nat} (h : s < 65536) : crcRoundInv (crcRound s) = s := by
  have hdivlt : s / 2 < 2 ^ 15 := by omega
  have hdivbit : (s / 2).testBit 15 = false := Nat.testBit_lt_two_pow hdivlt
  by_cases hc : s % 2 = 1
  · rw [crcRound_odd hc]
    unfold crcRoundInv
    have hbit : ((s / 2) ^^^ 0xA001).testBit 15 = true := by
      rw [Nat.testBit_xor, hdivbit]
      decide
    rw [if_pos hbit, Nat.xor_cancel_right]
    omega
  · rw [crcRound_even (by omega)]
    unfold crcRoundInv
    rw [if_neg (by rw [hdivbit]; exact Bool.false_ne_true)]
    omega

theorem crcRound_ne_zero {d : Nat} (hlt : d < 65536) (hne : d ≠ 0) :
    crcRound d ≠ 0 := by
  intro h0
  have : crcRoundInv (crcRound d) = d := crcRoundInv_round hlt
  rw [h0] at this
  unfold crcRoundInv at this
  rw [if_neg (by rw [Nat.zero_testBit]; exact Bool.false_ne_true)] at this
  omega

theorem crcRound_iterate_ne_zero (n : Nat) {d : Nat} (hlt : d < 65536) (hne : d ≠ 0) :
    crcRound^[n] d ≠ 0 := by
  induction n generalizing d with
  | zero => exact hne
  | succ k ih =>
      rw [Function.iterate_succ_apply]
      exact ih (crcRound_lt hlt) (crcRound_ne_zero hlt hne)

theorem crcFold_lt (l : List Nat) (s : Nat) (hs : s < 65536) (hl : ∀ b ∈ l, b < 256) :
    l.foldl crcProcessByte s < 65536 := by
  induction l generalizing s with
  | nil => exact hs
  | cons c t ih =>
      simp only [List.foldl_cons]
      apply ih
      · unfold crcProcessByte _XOR
        apply crcRound_iterate_lt
        exact xor_lt_65536 hs (by have := hl c (List.mem_cons_self c t); omega)
      · intro b hb
        exact hl b (List.mem_cons_of_mem _ hb)

theorem crcRegisterOf_lt {l : List Nat} (hl : ∀ b ∈ l, b < 256) :
    crcRegisterOf l < 65536 :=
  crcFold_lt l 0xFFFF (by norm_num) hl

/-- A nonzero XOR difference injected into one byte of the CRC input always
changes the final CRC register (the shift round is invertible on 16-bit
states, so the injected difference can never decay to zero). -/
theorem crcRegisterOf_flip_ne (pre suf : List Nat) (c e : Nat)
    (he1 : e < 65536) (he2 : e ≠ 0) :
    crcRegisterOf (pre ++ (c ^^^ e) :: suf) ≠ crcRegisterOf (pre ++ c :: suf) := by
  unfold crcRegisterOf
  rw [List.foldl_append, List.foldl_append]
  simp only [List.foldl_cons]
  have hstep : crcProcessByte (pre.foldl crcProcessByte 0xFFFF) (c ^^^ e) =
      crcProcessByte (pre.foldl crcProcessByte 0xFFFF) c ^^^ crcRound^[8] e := by
    unfold crcProcessByte _XOR
    rw [← Nat.xor_assoc, ← crcRound_iterate_linear]
  rw [hstep, foldl_crc_xor]
  intro hEq
  have hd0 : crcRound^[8 * suf.length] (crcRound^[8] e) = 0 := by
    have h2 := congrArg (fun x => suf.foldl crcProcessByte
        (crcProcessByte (pre.foldl crcProcessByte 0xFFFF) c) ^^^ x) hEq
    simp only [← Nat.xor_assoc, Nat.xor_self, Nat.zero_xor] at h2
    exact h2
  rw [← Function.iterate_add_apply] at hd0
  exact crcRound_iterate_ne_zero _ he1 he2 hd0

theorem calculateCrcString_flip_ne (pre suf : List Nat) (c e : Nat)
    (hpre : ∀ b ∈ pre, b < 256) (hc : c < 256) (hce : c ^^^ e < 256)
    (hsuf : ∀ b ∈ suf, b < 256) (he1 : e < 65536) (he2 : e ≠ 0) :
    _calculateCrcString (pre ++ (c ^^^ e) :: suf) ≠ _calculateCrcString (pre ++ c :: suf) := by
  have hr1 : crcRegisterOf (pre ++ (c ^^^ e) :: suf) < 65536 := by
    apply crcRegisterOf_lt
    intro b hb
    rcases List.mem_append.mp hb with h | h
    · exact hpre b h
    · rcases List.mem_cons.mp h with h | h
      · omega
      · exact hsuf b h
  have hr2 : crcRegisterOf (pre ++ c :: suf) < 65536 := by
    apply crcRegisterOf_lt
    intro b hb
    rcases List.mem_append.mp hb with h | h
    · exact hpre b h
    · rcases List.mem_cons.mp h with h | h
      · omega
      · exact hsuf b h
  have hne := crcRegisterOf_flip_ne pre suf c e he1 he2
  unfold _calculateCrcString
  intro h
  apply hne
  simp only [List.cons.injEq, and_true] at h
  omega

/-! ## pyTrunc and pack/unpack facts -/

theorem pyTrunc_intCast (n : Int) : pyTrunc ((n : ℚ)) = n := by
  unfold pyTrunc
  by_cases h : (0 : ℚ) ≤ (n : ℚ)
  · rw [if_pos h, Int.floor_intCast]
  · rw [if_neg h, ← Int.cast_neg, Int.floor_intCast, neg_neg]

theorem pyTrunc_nonneg_eq {q : ℚ} {n : Int} (h0 : 0 ≤ q) (h1 : (n : ℚ) ≤ q)
    (h2 : q < n + 1) : pyTrunc q = n := by
  unfold pyTrunc
  rw [if_pos h0]
  exact Int.floor_eq_iff.mpr ⟨h1, h2⟩

theorem numToOneByteString_ok {v : Int} (h0 : 0 ≤ v) (h1 : v ≤ 255) :
    _numToOneByteString v = .ok [v.toNat] := by
  unfold _numToOneByteString
  rw [checkInt_both_ok _ h0 h1]
  rfl

/-- `_numToTwoByteString` on an unsigned integer value with no scaling:
the big-endian (or little-endian) bytes of the 16-bit value. -/
theorem numToTwoByteString_int_unsigned (v : Int) (lsbFirst : Bool)
    (h0 : 0 ≤ v) (h1 : v ≤ 65535) :
    _numToTwoByteString (.int v) 0 lsbFirst false =
      .ok (if lsbFirst then [v.toNat % 256, v.toNat / 256]
           else [v.toNat / 256, v.toNat % 256]) := by
  unfold _numToTwoByteString
  rw [checkInt_min_ok _ (by omega)]
  simp only [ok_bind, PyNum.toRat, Int.toNat_zero, pow_zero, mul_one, pyTrunc_intCast]
  cases lsbFirst <;>
    · simp only [_pack]
      rw [if_pos (by omega)]
      simp

/-- `_numToTwoByteString` on a signed integer value with no scaling:
the bytes of the 16-bit two's-complement image `v % 65536`. -/
theorem numToTwoByteString_int_signed (v : Int) (lsbFirst : Bool)
    (h0 : -32768 ≤ v) (h1 : v ≤ 32767) :
    _numToTwoByteString (.int v) 0 lsbFirst true =
      .ok (if lsbFirst then [(v % 65536).toNat % 256, (v % 65536).toNat / 256]
           else [(v % 65536).toNat / 256, (v % 65536).toNat % 256]) := by
  unfold _numToTwoByteString
  rw [checkInt_min_ok _ (by omega)]
  simp only [ok_bind, PyNum.toRat, Int.toNat_zero, pow_zero, mul_one, pyTrunc_intCast]
  cases lsbFirst <;>
    · simp only [_pack]
      rw [if_pos (by omega)]
      simp

/-- `_numToTwoByteString` on an integer value with scaling: the bytes of
`v * 10^d`. -/
theorem numToTwoByteString_int_scaled_unsigned (v d : Int) (hd : 0 ≤ d)
    (h0 : 0 ≤ v * 10 ^ d.toNat) (h1 : v * 10 ^ d.toNat ≤ 65535) :
    _numToTwoByteString (.int v) d false false =
      .ok [(v * 10 ^ d.toNat).toNat / 256, (v * 10 ^ d.toNat).toNat % 256] := by
  unfold _numToTwoByteString
  rw [checkInt_min_ok _ hd]
  have hcast : (v : ℚ) * (10 : ℚ) ^ d.toNat = ((v * 10 ^ d.toNat : Int) : ℚ) := by
    push_cast
    ring
  simp only [ok_bind, PyNum.toRat, hcast, pyTrunc_intCast]
  simp only [_pack]
  rw [if_pos (by omega)]
  simp

theorem numToTwoByteString_int_scaled_signed (v d : Int) (hd : 0 ≤ d)
    (h0 : -32768 ≤ v * 10 ^ d.toNat) (h1 : v * 10 ^ d.toNat ≤ 32767) :
    _numToTwoByteString (.int v) d false true =
      .ok [(v * 10 ^ d.toNat % 65536).toNat / 256, (v * 10 ^ d.toNat % 65536).toNat % 256] := by
  unfold _numToTwoByteString
  rw [checkInt_min_ok _ hd]
  have hcast : (v : ℚ) * (10 : ℚ) ^ d.toNat = ((v * 10 ^ d.toNat : Int) : ℚ) := by
    push_cast
    ring
  simp only [ok_bind, PyNum.toRat, hcast, pyTrunc_intCast]
  simp only [_pack]
  rw [if_pos (by omega)]
  simp

/-- `_twoByteStringToNum` on a two-byte string: unpack, then return the
integer itself when `numberOfDecimals = 0` and the scaled-down float
otherwise. -/
theorem twoByteStringToNum_bytes (a b : Nat) (d : Int) (signed : Bool)
    (ha : a < 256) (hb : b < 256) (hd : 0 ≤ d) :
    _twoByteStringToNum [a, b] d signed =
      .ok (if d = 0 then .int (unpack16 signed a b)
           else .float ((unpack16 signed a b : ℚ) / (10 : ℚ) ^ d.toNat)) := by
  unfold _twoByteStringToNum
  rw [checkString_exact_ok _ (by norm_num) (by simp), checkInt_min_ok _ hd]
  cases signed with
  | false =>
      simp only [ok_bind, Bool.false_eq_true, if_false, _unpack]
      rw [if_pos ⟨ha, hb⟩]
      have hu : unpack16 false a b = (a : Int) * 256 + b := by
        unfold unpack16
        rw [if_neg (by simp)]
      rw [hu]
      by_cases hd0 : d = 0 <;> simp [hd0]
  | true =>
      simp only [ok_bind, if_true, _unpack]
      rw [if_pos ⟨ha, hb⟩]
      have hu : (if (a : Int) * 256 + b ≤ 32767 then (a : Int) * 256 + b
                 else (a : Int) * 256 + b - 65536) = unpack16 true a b := by
        unfold unpack16
        simp only [eq_self_iff_true, true_and]
        by_cases hlim : (a : Int) * 256 + b ≤ 32767
        · rw [if_pos hlim, if_neg (by omega)]
        · rw [if_neg hlim, if_pos (by omega)]
      rw [hu]
      by_cases hd0 : d = 0 <;> simp [hd0]

/-! ## LRC facts -/

theorem lrc_lt (s : ByteStr) : (((s.foldl (· + ·) 0) ^^^ 0xFF) + 1) &&& 0xFF < 256 :=
  Nat.lt_succ_of_le Nat.and_le_right

theorem calculateLrcString_eq_numToOneByteString (s : ByteStr) :
    _numToOneByteString (((((s.foldl (· + ·) 0) ^^^ 0xFF) + 1) &&& 0xFF : Nat) : Int) =
      .ok (_calculateLrcString s) := by
  have h := lrc_lt s
  rw [numToOneByteString_ok (by omega) (by omega)]
  unfold _calculateLrcString
  simp

theorem calculateCrcString_eq_numToTwoByteString (s : ByteStr) (h : ∀ b ∈ s, b < 256) :
    _numToTwoByteString (.int ((crcRegisterOf s : Nat) : Int)) 0 true false =
      .ok (_calculateCrcString s) := by
  have hlt : crcRegisterOf s < 65536 := crcRegisterOf_lt h
  rw [numToTwoByteString_int_unsigned _ _ (by omega) (by omega)]
  unfold _calculateCrcString
  simp

theorem length_calculateCrcString (s : ByteStr) : (_calculateCrcString s).length = 2 := rfl

theorem length_calculateLrcString (s : ByteStr) : (_calculateLrcString s).length = 1 := rfl

/-! ## Hex encoding facts -/

theorem hexVal_hexChar {n : Nat} (h : n < 16) : hexVal (hexChar n) = some n := by
  unfold hexVal hexChar
  by_cases h10 : n < 10
  · rw [if_pos h10, if_pos (by omega)]
    congr 1
    omega
  · rw [if_neg h10, if_neg (by omega), if_pos (by omega)]
    congr 1
    omega

theorem pyHexFmt02X_byte {b : Nat} (h : b < 256) :
    pyHexFmt02X b = [hexChar (b / 16), hexChar (b % 16)] := by
  unfold pyHexFmt02X
  rw [if_pos h]

theorem hexencode_append (s t : ByteStr) :
    _hexencode (s ++ t) = _hexencode s ++ _hexencode t := by
  unfold _hexencode
  exact List.flatMap_append s t pyHexFmt02X

theorem hexencode_nil : _hexencode [] = [] := rfl

theorem hexencode_cons (b : Nat) (t : ByteStr) :
    _hexencode (b :: t) = pyHexFmt02X b ++ _hexencode t := by
  unfold _hexencode
  simp

theorem length_hexencode {s : ByteStr} (h : ∀ b ∈ s, b < 256) :
    (_hexencode s).length = 2 * s.length := by
  induction s with
  | nil => rfl
  | cons b t ih =>
      unfold _hexencode at *
      simp only [List.flatMap_cons, List.length_append, List.length_cons]
      rw [pyHexFmt02X_byte (h b (List.mem_cons_self b t)),
        ih (fun x hx => h x (List.mem_cons_of_mem _ hx))]
      simp
      omega

theorem unhexlify_hexencode {s : ByteStr} (h : ∀ b ∈ s, b < 256) :
    unhexlify (_hexencode s) = some s := by
  induction s with
  | nil => rfl
  | cons b t ih =>
      have hb : b < 256 := h b (List.mem_cons_self b t)
      have hrest := ih (fun x hx => h x (List.mem_cons_of_mem _ hx))
      unfold _hexencode at *
      simp only [List.flatMap_cons]
      rw [pyHexFmt02X_byte hb]
      show unhexlify (hexChar (b / 16) :: hexChar (b % 16) :: t.flatMap pyHexFmt02X)
        = some (b :: t)
      unfold unhexlify
      rw [hexVal_hexChar (by omega), hexVal_hexChar (by omega), hrest]
      have hval : 16 * (b / 16) + b % 16 = b := by omega
      simp [hval]

theorem hexdecode_hexencode {s : ByteStr} (h : ∀ b ∈ s, b < 256) :
    _hexdecode (_hexencode s) = .ok s := by
  unfold _hexdecode
  rw [if_neg (by rw [length_hexencode h]; omega), unhexlify_hexencode h]

/-! ## Frame codec characterizations -/

theorem embedPayload_rtu {addr fc : Int} (payload : ByteStr)
    (h0 : 0 ≤ addr) (h1 : addr ≤ 247) (h2 : 1 ≤ fc) (h3 : fc ≤ 127) :
    _embedPayload addr .rtu fc payload =
      .ok ((addr.toNat :: fc.toNat :: payload) ++
        _calculateCrcString (addr.toNat :: fc.toNat :: payload)) := by
  unfold _embedPayload
  rw [checkSlaveaddress_ok h0 h1, checkFunctioncode_none_ok h2 h3, checkString_min0,
    numToOneByteString_ok h0 (by omega), numToOneByteString_ok (by omega) (by omega)]
  simp [List.singleton_append]

theorem embedPayload_ascii {addr fc : Int} (payload : ByteStr)
    (h0 : 0 ≤ addr) (h1 : addr ≤ 247) (h2 : 1 ≤ fc) (h3 : fc ≤ 127) :
    _embedPayload addr .ascii fc payload =
      .ok ([58] ++ _hexencode ((addr.toNat :: fc.toNat :: payload) ++
            _calculateLrcString (addr.toNat :: fc.toNat :: payload)) ++ [13, 10]) := by
  unfold _embedPayload
  rw [checkSlaveaddress_ok h0 h1, checkFunctioncode_none_ok h2 h3, checkString_min0,
    numToOneByteString_ok h0 (by omega), numToOneByteString_ok (by omega) (by omega)]
  simp [List.singleton_append, hexencode_cons, hexencode_append, hexencode_nil,
    List.append_assoc]

theorem extractPayload_rtu_frame (a s : Nat) (rest : ByteStr) (addr fc : Int)
    (haddr0 : 0 ≤ addr) (haddr1 : addr ≤ 247) (hfc0 : 1 ≤ fc) (hfc1 : fc ≤ 127) :
    _extractPayload ((a :: s :: rest) ++ _calculateCrcString (a :: s :: rest)) addr .rtu fc =
      (if (a : Int) ≠ addr then .error .wrongReturnAddress
       else if s = _setBitOn fc.toNat 7 then .error .slaveReportsError
       else if (s : Int) ≠ fc then .error .wrongFunctioncodeInResponse
       else .ok rest) := by
  have hlen : ((a :: s :: rest) ++ _calculateCrcString (a :: s :: rest)).length
      = (a :: s :: rest).length + 2 := by
    simp [length_calculateCrcString]
  unfold _extractPayload
  rw [checkString_min0, checkSlaveaddress_ok haddr0 haddr1,
    checkFunctioncode_none_ok hfc0 hfc1]
  simp only [ok_bind, pure_eq_ok]
  rw [if_neg (by simp only [hlen, List.length_cons]; omega)]
  have hsub : ((a :: s :: rest) ++ _calculateCrcString (a :: s :: rest)).length - 2
      = (a :: s :: rest).length := by
    rw [hlen]
    omega
  rw [hsub, List.drop_left, List.take_left]
  rw [if_neg (fun hh => hh rfl)]
  simp only [List.cons_append, List.headD_cons, List.getD_cons_succ, List.getD_cons_zero,
    List.drop_succ_cons, List.drop_zero, throw_eq_error]

theorem extractPayload_ascii_frame (a s : Nat) (rest : ByteStr) (addr fc : Int)
    (ha : a < 256) (hs : s < 256) (hrest : ∀ b ∈ rest, b < 256)
    (haddr0 : 0 ≤ addr) (haddr1 : addr ≤ 247) (hfc0 : 1 ≤ fc) (hfc1 : fc ≤ 127) :
    _extractPayload ([58] ++ _hexencode (a :: s :: rest) ++
        _hexencode (_calculateLrcString (a :: s :: rest)) ++ [13, 10]) addr .ascii fc =
      (if (a : Int) ≠ addr then .error .wrongReturnAddress
       else if s = _setBitOn fc.toNat 7 then .error .slaveReportsError
       else if (s : Int) ≠ fc then .error .wrongFunctioncodeInResponse
       else .ok rest) := by
  have hCb : ∀ b ∈ (a :: s :: rest) ++ _calculateLrcString (a :: s :: rest), b < 256 := by
    intro b hb
    rcases List.mem_append.mp hb with h | h
    · rcases List.mem_cons.mp h with h | h
      · omega
      · rcases List.mem_cons.mp h with h | h
        · omega
        · exact hrest b h
    · have hl := lrc_lt (a :: s :: rest)
      unfold _calculateLrcString at h
      rcases List.mem_cons.mp h with h | h
      · omega
      · simp at h
  have hcomb : [58] ++ _hexencode (a :: s :: rest) ++
      _hexencode (_calculateLrcString (a :: s :: rest)) ++ [13, 10] =
      58 :: (_hexencode ((a :: s :: rest) ++ _calculateLrcString (a :: s :: rest)) ++ [13, 10]) := by
    rw [hexencode_append]
    simp [List.append_assoc]
  rw [hcomb]
  have hHlen : (_hexencode ((a :: s :: rest) ++ _calculateLrcString (a :: s :: rest))).length
      = 2 * (rest.length + 3) := by
    rw [length_hexencode hCb]
    simp [length_calculateLrcString]
  have hfoot : (58 :: (_hexencode ((a :: s :: rest) ++ _calculateLrcString (a :: s :: rest))
      ++ [13, 10])).drop
        ((58 :: (_hexencode ((a :: s :: rest) ++ _calculateLrcString (a :: s :: rest))
          ++ [13, 10])).length - 2) = [13, 10] := by
    have hre : 58 :: (_hexencode ((a :: s :: rest) ++ _calculateLrcString (a :: s :: rest))
        ++ [13, 10]) = (58 :: _hexencode ((a :: s :: rest) ++
          _calculateLrcString (a :: s :: rest))) ++ [13, 10] := by
      simp
    rw [hre]
    have hl2 : ((58 :: _hexencode ((a :: s :: rest) ++ _calculateLrcString (a :: s :: rest)))
        ++ [13, 10]).length - 2 = (58 :: _hexencode ((a :: s :: rest) ++
          _calculateLrcString (a :: s :: rest))).length := by
      simp
    rw [hl2]
    exact List.drop_left _ _
  have hstrip : ((58 :: (_hexencode ((a :: s :: rest) ++ _calculateLrcString (a :: s :: rest))
      ++ [13, 10])).drop 1).take
        ((58 :: (_hexencode ((a :: s :: rest) ++ _calculateLrcString (a :: s :: rest))
          ++ [13, 10])).length - 3) =
      _hexencode ((a :: s :: rest) ++ _calculateLrcString (a :: s :: rest)) := by
    simp only [List.drop_succ_cons, List.drop_zero]
    have hl3 : (58 :: (_hexencode ((a :: s :: rest) ++ _calculateLrcString (a :: s :: rest))
        ++ [13, 10])).length - 3 = (_hexencode ((a :: s :: rest) ++
          _calculateLrcString (a :: s :: rest))).length := by
      simp
    rw [hl3]
    exact List.take_left _ _
  unfold _extractPayload
  rw [checkString_min0, checkSlaveaddress_ok haddr0 haddr1,
    checkFunctioncode_none_ok hfc0 hfc1]
  simp only [ok_bind, pure_eq_ok]
  rw [if_neg (by simp only [List.length_cons, List.length_append, hHlen]; omega)]
  simp only [ok_bind, pure_eq_ok, List.headD_cons]
  rw [if_neg (by omega)]
  rw [hfoot, if_neg (fun hh => hh rfl)]
  rw [hstrip]
  rw [if_neg (by rw [hHlen]; omega)]
  rw [hexdecode_hexencode hCb]
  simp only [ok_bind, pure_eq_ok]
  have hsub : ((a :: s :: rest) ++ _calculateLrcString (a :: s :: rest)).length - 1
      = (a :: s :: rest).length := by
    simp [length_calculateLrcString]
  rw [hsub, List.drop_left, List.take_left]
  rw [if_neg (fun hh => hh rfl)]
  simp only [List.cons_append, List.headD_cons, List.getD_cons_succ, List.getD_cons_zero,
    List.drop_succ_cons, List.drop_zero, throw_eq_error]

/-- `_extractPayload` on any frame with correct framing and checksum: the
result is decided by the address byte and the function-code byte alone. -/
theorem extractPayload_wellFormedFrame (mode : Mode) (a s : Nat) (rest : ByteStr)
    (addr fc : Int) (ha : a < 256) (hs : s < 256) (hrest : ∀ b ∈ rest, b < 256)
    (haddr0 : 0 ≤ addr) (haddr1 : addr ≤ 247) (hfc0 : 1 ≤ fc) (hfc1 : fc ≤ 127) :
    _extractPayload (wellFormedFrame mode (a :: s :: rest)) addr mode fc =
      (if (a : Int) ≠ addr then .error .wrongReturnAddress
       else if s = _setBitOn fc.toNat 7 then .error .slaveReportsError
       else if (s : Int) ≠ fc then .error .wrongFunctioncodeInResponse
       else .ok rest) := by
  cases mode with
  | rtu =>
      show _extractPayload ((a :: s :: rest) ++ _calculateCrcString (a :: s :: rest))
        addr .rtu fc = _
      exact extractPayload_rtu_frame a s rest addr fc haddr0 haddr1 hfc0 hfc1
  | ascii =>
      show _extractPayload ([58] ++ _hexencode (a :: s :: rest) ++
        _hexencode (_calculateLrcString (a :: s :: rest)) ++ [13, 10]) addr .ascii fc = _
      exact extractPayload_ascii_frame a s rest addr fc ha hs hrest
        haddr0 haddr1 hfc0 hfc1

theorem setBitOn7_ne {x : Nat} (h : x < 128) : x ≠ _setBitOn x 7 := by
  unfold _setBitOn
  intro hEq
  have h1 : (x ||| 1 <<< 7).testBit 7 = true := by
    rw [Nat.testBit_or]
    have h2 : Nat.testBit (1 <<< 7) 7 = true := by decide
    rw [h2, Bool.or_true]
  have h2 : x.testBit 7 = false :=
    Nat.testBit_lt_two_pow (by norm_num; omega)
  rw [← hEq] at h1
  rw [h1] at h2
  exact Bool.noConfusion h2

theorem embedPayload_eq_wellFormedFrame {addr fc : Int} (mode : Mode) (payload : ByteStr)
    (h0 : 0 ≤ addr) (h1 : addr ≤ 247) (h2 : 1 ≤ fc) (h3 : fc ≤ 127) :
    _embedPayload addr mode fc payload =
      .ok (wellFormedFrame mode (addr.toNat :: fc.toNat :: payload)) := by
  cases mode with
  | rtu => exact embedPayload_rtu payload h0 h1 h2 h3
  | ascii =>
      rw [embedPayload_ascii payload h0 h1 h2 h3]
      unfold wellFormedFrame
      rw [hexencode_append]
      simp [List.append_assoc]

/-- C1: for every subordinate address in [0,247], mode in {RTU, ASCII},
function code in [1,127], and byte-string payload, extracting the payload
from the frame built by `_embedPayload` — via `_extractPayload` with the
same address, mode and function code — returns exactly the original
payload. -/
theorem C1_frame_roundtrip (address : Int) (mode : Mode) (functioncode : Int)
    (payload : ByteStr)
    (h0 : 0 ≤ address) (h1 : address ≤ 247) (h2 : 1 ≤ functioncode)
    (h3 : functioncode ≤ 127) (hp : ∀ b ∈ payload, b < 256) :
    (_embedPayload address mode functioncode payload).bind
      (fun frame => _extractPayload frame address mode functioncode) = .ok payload := by
  have hacast : ((address.toNat : Nat) : Int) = address := Int.toNat_of_nonneg h0
  have hfcast : ((functioncode.toNat : Nat) : Int) = functioncode :=
    Int.toNat_of_nonneg (by omega)
  rw [embedPayload_eq_wellFormedFrame mode payload h0 h1 h2 h3]
  show _extractPayload _ _ _ _ = _
  rw [extractPayload_wellFormedFrame mode _ _ payload address functioncode
    (by omega) (by omega) hp h0 h1 h2 h3]
  rw [if_neg (by rw [hacast]; exact fun hh => hh rfl)]
  rw [if_neg (setBitOn7_ne (by omega))]
  rw [if_neg (by rw [hfcast]; exact fun hh => hh rfl)]

/-- C1 witness: a concrete instantiation (address 1, RTU, function code 3,
payload `00 00 00 01`). -/
theorem C1_frame_roundtrip_witness :
    (0 : Int) ≤ 1 ∧ (1 : Int) ≤ 247 ∧ (1 : Int) ≤ 3 ∧ (3 : Int) ≤ 127 ∧
    (∀ b ∈ ([0, 0, 0, 1] : ByteStr), b < 256) ∧
    (_embedPayload 1 .rtu 3 [0, 0, 0, 1]).bind
      (fun frame => _extractPayload frame 1 .rtu 3) = .ok [0, 0, 0, 1] :=
  ⟨by norm_num, by norm_num, by norm_num, by norm_num, by decide,
    C1_frame_roundtrip 1 .rtu 3 [0, 0, 0, 1] (by norm_num) (by norm_num)
      (by norm_num) (by norm_num) (by decide)⟩

/-- C2 counterexample: the CRC-16 of `01 03 00 00 00 01` computed by
`_calculateCrcString` is the register 0x0A84, transmitted low byte first as
`84 0A` — not the value 0x0AC4 / bytes `C4 0A` stated by the claim. -/
theorem C2_crc_reference_vector_false :
    _calculateCrcString [0x01, 0x03, 0x00, 0x00, 0x00, 0x01] ≠ [0xC4, 0x0A] := by
  decide

/-- C2 (amended): the CRC-16 function (polynomial 0xA001, initial register
0xFFFF, processed bit-by-bit per byte) is a pure function, and on the 6-byte
sequence `01 03 00 00 00 01` it yields the register value 0x0A84, transmitted
low byte first as the two bytes `84 0A`. -/
theorem C2_crc_reference_vector :
    crcRegisterOf [0x01, 0x03, 0x00, 0x00, 0x00, 0x01] = 0x0A84 ∧
    _calculateCrcString [0x01, 0x03, 0x00, 0x00, 0x00, 0x01] = [0x84, 0x0A] := by
  constructor <;> decide

/-- C6: for every response that passes the framing, checksum and address
checks (a well-formed frame whose first byte is the expected address), a
second byte equal to `expected_function_code | 0x80` (the code's
`_setBitOn(functioncode, 7)`) raises the device-exception error, and any
other second byte different from the expected function code raises the
function-code-mismatch error; the two errors are distinct. -/
theorem C6_device_exception_error (address functioncode : Int) (second : Nat)
    (rest : ByteStr) (mode : Mode)
    (h0 : 0 ≤ address) (h1 : address ≤ 247) (h2 : 1 ≤ functioncode)
    (h3 : functioncode ≤ 127) (hsec : second < 256) (hrest : ∀ b ∈ rest, b < 256) :
    (second = _setBitOn functioncode.toNat 7 →
      _extractPayload (wellFormedFrame mode (address.toNat :: second :: rest))
        address mode functioncode = .error .slaveReportsError) ∧
    (second ≠ _setBitOn functioncode.toNat 7 → (second : Int) ≠ functioncode →
      _extractPayload (wellFormedFrame mode (address.toNat :: second :: rest))
        address mode functioncode = .error .wrongFunctioncodeInResponse) ∧
    Err.slaveReportsError ≠ Err.wrongFunctioncodeInResponse := by
  have hchar := extractPayload_wellFormedFrame mode address.toNat second rest
    address functioncode (by omega) hsec hrest h0 h1 h2 h3
  rw [if_neg (by rw [Int.toNat_of_nonneg h0]; exact fun hh => hh rfl)] at hchar
  refine ⟨fun hdev => ?_, fun hne1 hne2 => ?_, by decide⟩
  · rw [hchar, if_pos hdev]
  · rw [hchar, if_neg hne1, if_pos hne2]

theorem xor_lt_256 {a b : Nat} (ha : a < 256) (hb : b < 256) : a ^^^ b < 256 := by
  have h8 : (256 : ℕ) = 2 ^ 8 := by norm_num
  rw [h8] at ha hb ⊢
  exact Nat.xor_lt_two_pow ha hb

/-- `_extractPayload` on an RTU response whose trailing two bytes do not
match the CRC of the leading bytes: the checksum error. -/
theorem extractPayload_rtu_checksum_error (C K : ByteStr) (addr fc : Int)
    (hlenC : 2 ≤ C.length) (hK : K.length = 2)
    (haddr0 : 0 ≤ addr) (haddr1 : addr ≤ 247) (hfc0 : 1 ≤ fc) (hfc1 : fc ≤ 127)
    (hne : K ≠ _calculateCrcString C) :
    _extractPayload (C ++ K) addr .rtu fc = .error .checksumError := by
  unfold _extractPayload
  rw [checkString_min0, checkSlaveaddress_ok haddr0 haddr1,
    checkFunctioncode_none_ok hfc0 hfc1]
  simp only [ok_bind, pure_eq_ok]
  rw [if_neg (by simp only [List.length_append, hK]; omega)]
  have hsub : (C ++ K).length - 2 = C.length := by
    simp only [List.length_append, hK]
    omega
  rw [hsub, List.drop_left, List.take_left]
  rw [if_pos hne]
  rfl

/-- C7 counterexample: the claim fails in ASCII mode.  The valid ASCII frame
for (address 1, function code 3, payload `0A`) is `":01030AF2\r\n"`, i.e.
bytes `[58,48,49,48,51,48,65,70,50,13,10]` (checksum characters at positions
7 and 8, footer at 9 and 10).  Flipping bit 5 of the byte at position 6 —
the hex digit `A` of the payload region, inside the non-checksum region —
turns it into lowercase `a` (byte 97); `binascii.unhexlify` accepts
lowercase hex digits, so `_extractPayload` accepts the corrupted frame and
returns the original payload instead of raising a frame error. -/
theorem C7_ascii_caseflip_accepted :
    _embedPayload 1 .ascii 3 [10] = .ok [58, 48, 49, 48, 51, 48, 65, 70, 50, 13, 10] ∧
    flipBit [58, 48, 49, 48, 51, 48, 65, 70, 50, 13, 10] 6 5
      = [58, 48, 49, 48, 51, 48, 97, 70, 50, 13, 10] ∧
    _extractPayload [58, 48, 49, 48, 51, 48, 97, 70, 50, 13, 10] 1 .ascii 3 = .ok [10] :=
  ⟨rfl, by decide, rfl⟩

/-- C7 (amended): for every valid RTU frame produced by `_embedPayload` and
every modification that flips exactly one bit of one byte in the frame's
non-checksum region (the address, function-code and payload bytes),
`_extractPayload` applied to the corrupted frame raises the checksum frame
error and never returns a payload.  (For ASCII frames the claim fails:
flipping bit 5 of an alphabetic hex digit only changes its letter case and
the frame is still accepted — see the counterexample.) -/
theorem C7_rtu_bitflip_checksum_error (address functioncode : Int) (payload : ByteStr)
    (i j : Nat)
    (h0 : 0 ≤ address) (h1 : address ≤ 247) (h2 : 1 ≤ functioncode)
    (h3 : functioncode ≤ 127) (hp : ∀ b ∈ payload, b < 256)
    (hi : i < 2 + payload.length) (hj : j < 8) :
    (_embedPayload address .rtu functioncode payload).bind
      (fun frame => _extractPayload (flipBit frame i j) address .rtu functioncode)
      = .error .checksumError := by
  rw [embedPayload_rtu payload h0 h1 h2 h3, ok_bind_expl]
  have hC : ∀ b ∈ (address.toNat :: functioncode.toNat :: payload), b < 256 := by
    intro b hb
    rcases List.mem_cons.mp hb with h | h
    · omega
    · rcases List.mem_cons.mp h with h | h
      · omega
      · exact hp b h
  have hiC : i < (address.toNat :: functioncode.toNat :: payload).length := by
    simp only [List.length_cons]
    omega
  have he : (1 : Nat) <<< j < 256 := by
    rw [Nat.one_shiftLeft]
    calc (2 : ℕ) ^ j ≤ 2 ^ 7 := Nat.pow_le_pow_right (by norm_num) (by omega)
    _ < 256 := by norm_num
  have hene : (1 : Nat) <<< j ≠ 0 := by
    rw [Nat.one_shiftLeft]
    exact (Nat.pow_pos (by norm_num)).ne'
  have hflip : flipBit ((address.toNat :: functioncode.toNat :: payload) ++
      _calculateCrcString (address.toNat :: functioncode.toNat :: payload)) i j =
      ((address.toNat :: functioncode.toNat :: payload).take i ++
        ((address.toNat :: functioncode.toNat :: payload).getD i 0 ^^^ (1 <<< j)) ::
          (address.toNat :: functioncode.toNat :: payload).drop (i + 1)) ++
        _calculateCrcString (address.toNat :: functioncode.toNat :: payload) := by
    unfold flipBit
    rw [List.take_append_of_le_length (le_of_lt hiC),
      List.getD_append _ _ _ _ hiC,
      List.drop_append_of_le_length (by omega)]
    simp [List.append_assoc]
  rw [hflip]
  have hdecomp : (address.toNat :: functioncode.toNat :: payload).take i ++
      (address.toNat :: functioncode.toNat :: payload).getD i 0 ::
        (address.toNat :: functioncode.toNat :: payload).drop (i + 1) =
      address.toNat :: functioncode.toNat :: payload := by
    rw [List.getD_eq_getElem _ _ hiC, ← List.drop_eq_getElem_cons hiC]
    exact List.take_append_drop i _
  have hgetlt : (address.toNat :: functioncode.toNat :: payload).getD i 0 < 256 := by
    rw [List.getD_eq_getElem _ _ hiC]
    exact hC _ (List.getElem_mem _)
  have hccne : _calculateCrcString
      ((address.toNat :: functioncode.toNat :: payload).take i ++
        ((address.toNat :: functioncode.toNat :: payload).getD i 0 ^^^ (1 <<< j)) ::
          (address.toNat :: functioncode.toNat :: payload).drop (i + 1)) ≠
      _calculateCrcString (address.toNat :: functioncode.toNat :: payload) := by
    have h := calculateCrcString_flip_ne
      ((address.toNat :: functioncode.toNat :: payload).take i)
      ((address.toNat :: functioncode.toNat :: payload).drop (i + 1))
      ((address.toNat :: functioncode.toNat :: payload).getD i 0) (1 <<< j)
      (fun b hb => hC b (List.mem_of_mem_take hb))
      hgetlt (xor_lt_256 hgetlt he)
      (fun b hb => hC b (List.mem_of_mem_drop hb))
      (by omega) hene
    rw [hdecomp] at h
    exact h
  exact extractPayload_rtu_checksum_error _ _ address functioncode
    (by simp only [List.length_append, List.length_take, List.length_cons,
      List.length_drop]; omega)
    (length_calculateCrcString _) h0 h1 h2 h3 hccne.symm

/-- C7 witness: a concrete RTU instantiation — address 1, function code 3,
payload `00`, flipping bit 0 of byte 0 of the frame. -/
theorem C7_rtu_bitflip_checksum_error_witness :
    (0 : Int) ≤ 1 ∧ (∀ b ∈ ([0] : ByteStr), b < 256) ∧ (0 : Nat) < 2 + 1 ∧ (0 : Nat) < 8 ∧
    (_embedPayload 1 .rtu 3 [0]).bind
      (fun frame => _extractPayload (flipBit frame 0 0) 1 .rtu 3)
      = .error .checksumError :=
  ⟨by norm_num, by decide, by norm_num, by norm_num,
    C7_rtu_bitflip_checksum_error 1 3 [0] 0 0 (by norm_num) (by norm_num) (by norm_num)
      (by norm_num) (by decide) (by norm_num) (by norm_num)⟩

/-- `_numToTwoByteString` for an arbitrary numeric value: the bytes of the
16-bit two's-complement image of the truncated scaled value. -/
theorem numToTwoByteString_trunc (value : PyNum) (d : Int) (signed : Bool) (hd : 0 ≤ d)
    (hrange : if signed
      then -32768 ≤ pyTrunc (value.toRat * (10 : ℚ) ^ d.toNat) ∧
        pyTrunc (value.toRat * (10 : ℚ) ^ d.toNat) ≤ 32767
      else 0 ≤ pyTrunc (value.toRat * (10 : ℚ) ^ d.toNat) ∧
        pyTrunc (value.toRat * (10 : ℚ) ^ d.toNat) ≤ 65535) :
    _numToTwoByteString value d false signed =
      .ok [(pyTrunc (value.toRat * (10 : ℚ) ^ d.toNat) % 65536).toNat / 256,
           (pyTrunc (value.toRat * (10 : ℚ) ^ d.toNat) % 65536).toNat % 256] := by
  unfold _numToTwoByteString
  rw [checkInt_min_ok _ hd]
  cases signed with
  | true =>
      rw [if_pos rfl] at hrange
      simp only [ok_bind, _pack]
      rw [if_pos (by omega)]
      simp
  | false =>
      rw [if_neg (by exact Bool.false_ne_true)] at hrange
      have hmod : pyTrunc (value.toRat * (10 : ℚ) ^ d.toNat) % 65536
          = pyTrunc (value.toRat * (10 : ℚ) ^ d.toNat) :=
        Int.emod_eq_of_lt (by omega) (by omega)
      simp only [ok_bind, _pack]
      rw [if_pos (by omega)]
      simp [hmod]

/-- C5 counterexample: the claim says encoding packs
`round(value * 10^numberOfDecimals)`, but `_numToTwoByteString` truncates
toward zero (`int(float(value) * multiplier)`): encoding the value 1.5
(exactly representable as a double, `numberOfDecimals = 0`, unsigned)
transmits `00 01`, while the spec's formula (`specRegisterEncode`, with
`round(1.5) = 2`) yields `00 02`. -/
theorem C5_register_encode_rounds_false :
    _numToTwoByteString (.float (3 / 2)) 0 false false = .ok [0, 1] ∧
    specRegisterEncode (3 / 2) 0 false = .ok [0, 2] ∧
    ([0, 1] : ByteStr) ≠ [0, 2] := by
  have htr : pyTrunc ((PyNum.float (3 / 2)).toRat * (10 : ℚ) ^ (0 : Int).toNat) = 1 :=
    pyTrunc_nonneg_eq (by norm_num [PyNum.toRat]) (by norm_num [PyNum.toRat])
      (by norm_num [PyNum.toRat])
  refine ⟨?_, ?_, by decide⟩
  · rw [numToTwoByteString_trunc (.float (3 / 2)) 0 false (by norm_num)
      (by rw [if_neg Bool.false_ne_true, htr]; norm_num), htr]
    decide
  · unfold specRegisterEncode
    rw [show round ((3 / 2 : ℚ) * (10 : ℚ) ^ (0 : Nat)) = 2 by norm_num [round_eq]]
    decide

/-- C5 (amended): encoding a register value produces the two-byte big-endian
packing of the 16-bit two's-complement image of `int(value * 10^d)` — the
scaled value truncated toward zero, not rounded — and decoding divides the
unpacked 16-bit value by `10^d`, returning a Python `int` when `d = 0` and
a Python `float` otherwise. -/
theorem C5_register_codec (value : PyNum) (d : Int) (signed : Bool) (hd : 0 ≤ d) :
    ((if signed
      then -32768 ≤ pyTrunc (value.toRat * (10 : ℚ) ^ d.toNat) ∧
        pyTrunc (value.toRat * (10 : ℚ) ^ d.toNat) ≤ 32767
      else 0 ≤ pyTrunc (value.toRat * (10 : ℚ) ^ d.toNat) ∧
        pyTrunc (value.toRat * (10 : ℚ) ^ d.toNat) ≤ 65535) →
      _numToTwoByteString value d false signed =
        .ok [(pyTrunc (value.toRat * (10 : ℚ) ^ d.toNat) % 65536).toNat / 256,
             (pyTrunc (value.toRat * (10 : ℚ) ^ d.toNat) % 65536).toNat % 256]) ∧
    (∀ a b : Nat, a < 256 → b < 256 →
      _twoByteStringToNum [a, b] d signed =
        .ok (if d = 0 then PyNum.int (unpack16 signed a b)
             else PyNum.float ((unpack16 signed a b : ℚ) / (10 : ℚ) ^ d.toNat))) :=
  ⟨fun hrange => numToTwoByteString_trunc value d signed hd hrange,
   fun a b ha hb => twoByteStringToNum_bytes a b d signed ha hb hd⟩

/-- C5 witness: encoding 1.5 (d = 0, unsigned) gives `00 01`; decoding the
bytes `03 02` with one decimal gives the float 77.0. -/
theorem C5_register_codec_witness :
    _numToTwoByteString (.float (3 / 2)) 0 false false = .ok [0, 1] ∧
    _twoByteStringToNum [3, 2] 1 false = .ok (.float 77) := by
  have htr : pyTrunc ((PyNum.float (3 / 2)).toRat * (10 : ℚ) ^ (0 : Int).toNat) = 1 :=
    pyTrunc_nonneg_eq (by norm_num [PyNum.toRat]) (by norm_num [PyNum.toRat])
      (by norm_num [PyNum.toRat])
  constructor
  · rw [(C5_register_codec (.float (3 / 2)) 0 false (by norm_num)).1
      (by rw [if_neg Bool.false_ne_true, htr]; norm_num), htr]
    decide
  · rw [(C5_register_codec (.float (3 / 2)) 1 false (by norm_num)).2 3 2
      (by norm_num) (by norm_num)]
    rw [if_neg (by norm_num)]
    simp only [Except.ok.injEq, PyNum.float.injEq]
    norm_num [unpack16]

theorem bind_eq_ok {α β : Type} {x : Except Err α} {f : α → Except Err β} {b : β}
    (h : (x >>= f) = .ok b) : ∃ a, x = .ok a ∧ f a = .ok b := by
  cases x with
  | ok a => exact ⟨a, rfl, h⟩
  | error e => exact Except.noConfusion h

theorem checkInt_both_ok_ranges {v lo hi : Int} {d : String} {u : Unit} (hc : lo ≤ hi)
    (h : _checkInt v (some lo) (some hi) d = .ok u) : lo ≤ v ∧ v ≤ hi := by
  rw [checkInt_both v lo hi d hc] at h
  by_cases h1 : v < lo
  · rw [if_pos h1] at h
    exact Except.noConfusion h
  · rw [if_neg h1] at h
    by_cases h2 : hi < v
    · rw [if_pos h2] at h
      exact Except.noConfusion h
    · omega

/-- A successful `read_register` pipeline implies that every range check
passed: the number of decimals, the subordinate address (checked inside
`_embedPayload`) and the register address were all in range. -/
theorem read_register_ok_ranges {address : Int} {mode : Mode}
    {registeraddress numberOfDecimals functioncode : Int} {signed : Bool} {m : ByteStr}
    (h : read_register address mode registeraddress numberOfDecimals functioncode signed
      = .ok m) :
    0 ≤ numberOfDecimals ∧ numberOfDecimals ≤ 10 ∧ 0 ≤ address ∧ address ≤ 247 ∧
      0 ≤ registeraddress ∧ registeraddress ≤ 65535 := by
  unfold read_register at h
  obtain ⟨u1, hc1, h⟩ := bind_eq_ok h
  obtain ⟨u2, hc2, h⟩ := bind_eq_ok h
  obtain ⟨u3, hc3, h⟩ := bind_eq_ok h
  obtain ⟨u4, hc4, h⟩ := bind_eq_ok h
  obtain ⟨u5, hc5, h⟩ := bind_eq_ok h
  obtain ⟨u6, hc6, h⟩ := bind_eq_ok h
  obtain ⟨p1, hp1, h⟩ := bind_eq_ok h
  obtain ⟨p2, hp2, h⟩ := bind_eq_ok h
  obtain ⟨u7, hc7, h⟩ := bind_eq_ok h
  obtain ⟨u8, hc8, h⟩ := bind_eq_ok h
  unfold _embedPayload at h
  obtain ⟨u9, hc9, h⟩ := bind_eq_ok h
  have hdec := checkInt_both_ok_ranges (by norm_num) hc2
  have hreg := checkInt_both_ok_ranges (by norm_num) hc4
  have haddr := checkInt_both_ok_ranges (by norm_num) hc9
  exact ⟨hdec.1, hdec.2, haddr.1, haddr.2, hreg.1, hreg.2⟩

/-- C3: every call to `read_register` whose `numberOfDecimals` is outside
[0,10], or whose session's subordinate address is outside [0,247], or whose
register address is outside [0,65535] raises an argument error
(ValueError/TypeError) — the pipeline yields an error instead of a request
frame, so no bytes are ever written to the serial transport. -/
theorem C3_read_register_range_enforcement (address : Int) (mode : Mode)
    (registeraddress numberOfDecimals functioncode : Int) (signed : Bool)
    (hbad : numberOfDecimals < 0 ∨ 10 < numberOfDecimals ∨ address < 0 ∨ 247 < address ∨
      registeraddress < 0 ∨ 65535 < registeraddress) :
    ∃ e, read_register address mode registeraddress numberOfDecimals functioncode signed
      = .error e := by
  cases hres : read_register address mode registeraddress numberOfDecimals
      functioncode signed with
  | error e => exact ⟨e, rfl⟩
  | ok m =>
      exfalso
      have hranges := read_register_ok_ranges hres
      omega

/-- C3 witness: `numberOfDecimals = 11` is rejected. -/
theorem C3_read_register_range_enforcement_witness :
    ((11 : Int) < 0 ∨ (10 : Int) < 11 ∨ (1 : Int) < 0 ∨ (247 : Int) < 1 ∨
      (0 : Int) < 0 ∨ (65535 : Int) < 0) ∧
    ∃ e, read_register 1 .rtu 0 11 3 false = .error e :=
  ⟨by norm_num, C3_read_register_range_enforcement 1 .rtu 0 11 3 false (by norm_num)⟩

/-- C10: `write_long`'s entry validation accepts every integer in the
combined range [-2147483648, 4294967295] regardless of the `signed` flag; a
value outside the range of the chosen signedness is rejected with a
`ValueError` only when the 4-byte packing (`_longToBytestring` → `_pack`)
is attempted — the request pipeline yields the pack error instead of a
frame, still before any bytes are written to the transport. -/
theorem C10_write_long_signedness (address : Int) (mode : Mode)
    (registeraddress value : Int) (signed : Bool) :
    ((-2147483648 ≤ value ∧ value ≤ 4294967295) →
      _checkInt value (some (-2147483648)) (some 4294967295) "input value" = .ok ()) ∧
    (0 ≤ registeraddress → registeraddress ≤ 65535 →
      ((signed = false ∧ -2147483648 ≤ value ∧ value < 0) ∨
       (signed = true ∧ 2147483647 < value ∧ value ≤ 4294967295)) →
      write_long address mode registeraddress value signed = .error .packError) := by
  constructor
  · intro hr
    exact checkInt_both_ok _ hr.1 hr.2
  · intro hreg0 hreg1 hbad
    unfold write_long
    rw [checkInt_both_ok "input value" (by omega) (by omega)]
    rw [show _checkFunctioncode 16 (some [1, 2, 3, 4, 5, 6, 15, 16]) = .ok () from by decide]
    rw [show _checkRegisteraddress registeraddress = .ok () from
      checkRegisteraddress_ok hreg0 hreg1]
    rw [show _checkInt 0 (some 0) none "number of decimals" = .ok () from by decide]
    rw [show _checkInt 2 (some 1) (some 255) "number of registers" = .ok () from by decide]
    simp only [ok_bind]
    unfold _longToBytestring
    rw [show _checkInt 2 (some 2) (some 2) "number of registers" = .ok () from by decide]
    simp only [ok_bind]
    rcases hbad with ⟨hs, hv0, hv1⟩ | ⟨hs, hv0, hv1⟩ <;> subst hs
    · simp only [Bool.false_eq_true, if_false, _pack]
      rw [if_neg (by omega)]
      rfl
    · simp only [if_true, _pack]
      rw [if_neg (by omega)]
      rfl

/-- C10 witness: value -1 with `signed = False` passes the entry check and
is rejected at the packing stage. -/
theorem C10_write_long_signedness_witness :
    _checkInt (-1) (some (-2147483648)) (some 4294967295) "input value" = .ok () ∧
    write_long 1 .rtu 0 (-1) false = .error .packError :=
  ⟨(C10_write_long_signedness 1 .rtu 0 (-1) false).1 (by norm_num),
   (C10_write_long_signedness 1 .rtu 0 (-1) false).2 (by norm_num) (by norm_num)
     (Or.inl ⟨rfl, by norm_num, by norm_num⟩)⟩

theorem checkString_min_ok {s : ByteStr} {lo : Int} (d : String)
    (h0 : 0 ≤ lo) (h1 : lo ≤ (s.length : Int)) :
    _checkString s d lo none = .ok () := by
  simp only [_checkString]
  rw [if_neg (by omega), if_neg (by omega)]

theorem checkString_too_long {s : ByteStr} {lo hi : Int} (d : String)
    (h0 : 0 ≤ lo) (hc : lo ≤ hi) (h1 : lo ≤ (s.length : Int)) (h2 : hi < (s.length : Int)) :
    _checkString s d lo (some hi) = .error (.strTooLong d) := by
  simp only [_checkString]
  rw [if_neg (by omega), if_neg (by omega), if_neg (by omega), if_neg (by omega),
    if_pos (by omega)]

theorem numToTwoByteString_int_be_unsigned (v : Int) (h0 : 0 ≤ v) (h1 : v ≤ 65535) :
    _numToTwoByteString (.int v) 0 false false = .ok [v.toNat / 256, v.toNat % 256] := by
  rw [numToTwoByteString_int_unsigned v false h0 h1]
  rfl

theorem textstringToBytestring_ok {s : ByteStr} {n : Int} (hn : 1 ≤ n)
    (hs1 : 1 ≤ s.length) (hs2 : (s.length : Int) ≤ 2 * n) :
    _textstringToBytestring s n =
      .ok (s ++ List.replicate ((2 * n).toNat - s.length) 32) := by
  simp only [_textstringToBytestring]
  rw [checkInt_min_ok _ hn,
    checkString_minmax_ok _ (by norm_num) (by omega) (by omega) hs2]
  simp only [ok_bind]
  rw [if_pos (by simp only [List.length_append, List.length_replicate]; omega)]
  rfl

theorem bytestringToTextstring_ok {data : ByteStr} {n : Int} (hn : 1 ≤ n)
    (hd : (data.length : Int) = 2 * n) :
    _bytestringToTextstring data n = .ok data := by
  simp only [_bytestringToTextstring]
  rw [checkInt_min_ok _ hn, checkString_exact_ok _ (by omega) hd]
  rfl

/-- C8 counterexample: the empty string is "shorter than
2*numberOfRegisters characters", but `write_string` rejects it (the
`_checkString(..., minlength=1, ...)` facade check) instead of padding and
transmitting it. -/
theorem C8_empty_string_rejected :
    ([] : ByteStr).length < 2 * 1 ∧
    write_string 1 .rtu 0 [] 1 = .error (.strTooShort "input string") := by
  constructor
  · norm_num
  · rfl

/-- C8 (amended): for `write_string` with `numberOfRegisters = n` in the
transmittable range [1,127] (for n ≥ 128 the one-byte byte-count field
2n overflows and a `ValueError` is raised instead), every NONEMPTY input
string of at most 2n characters is right-padded with spaces to exactly 2n
bytes and embedded in the transmitted frame (the empty string is rejected
by the minimum-length check — see the counterexample); every input string
longer than 2n characters raises a validation error before any I/O; and
`read_string`'s decode step returns the raw padded byte range unmodified. -/
theorem C8_write_string_padding (address : Int) (mode : Mode)
    (registeraddress : Int) (s : ByteStr) (n : Int)
    (hn1 : 1 ≤ n) (hn2 : n ≤ 127) (hr0 : 0 ≤ registeraddress)
    (hr1 : registeraddress ≤ 65535) :
    (1 ≤ s.length → (s.length : Int) ≤ 2 * n →
      write_string address mode registeraddress s n =
        _embedPayload address mode 16
          ([registeraddress.toNat / 256, registeraddress.toNat % 256] ++
           [n.toNat / 256, n.toNat % 256] ++ [(2 * n).toNat] ++
           (s ++ List.replicate ((2 * n).toNat - s.length) 32)) ∧
      (s ++ List.replicate ((2 * n).toNat - s.length) 32).length = (2 * n).toNat) ∧
    (2 * n < (s.length : Int) →
      write_string address mode registeraddress s n = .error (.strTooLong "input string")) ∧
    (∀ data : ByteStr, (data.length : Int) = 2 * n →
      read_string_decode (data.length :: data) n = .ok data) := by
  refine ⟨fun hs1 hs2 => ?_, fun hlong => ?_, fun data hdata => ?_⟩
  · have hpadlen : (s ++ List.replicate ((2 * n).toNat - s.length) 32).length
        = (2 * n).toNat := by
      simp only [List.length_append, List.length_replicate]
      omega
    refine ⟨?_, hpadlen⟩
    unfold write_string
    rw [checkInt_min_ok _ hn1,
      checkString_minmax_ok _ (by norm_num) (by omega) (by omega) hs2,
      show _checkFunctioncode 16 (some [1, 2, 3, 4, 5, 6, 15, 16]) = .ok () from by decide,
      show _checkRegisteraddress registeraddress = .ok () from
        checkRegisteraddress_ok hr0 hr1,
      show _checkInt 0 (some 0) none "number of decimals" = .ok () from by decide,
      checkInt_both_ok "number of registers" hn1 (by omega),
      textstringToBytestring_ok hn1 hs1 hs2]
    simp only [ok_bind]
    rw [if_neg (by rw [hpadlen]; omega)]
    rw [numToTwoByteString_int_be_unsigned registeraddress hr0 hr1,
      numToTwoByteString_int_be_unsigned n (by omega) (by omega),
      numToOneByteString_ok (by omega) (by omega),
      show _checkFunctioncode 16 none = .ok () from by decide]
    simp only [ok_bind]
    rw [checkString_min0]
    simp only [ok_bind]
  · unfold write_string
    rw [checkInt_min_ok _ hn1,
      checkString_too_long _ (by norm_num) (by omega) (by omega) hlong]
    rfl
  · unfold read_string_decode
    rw [checkString_min_ok _ (by norm_num) (by simp)]
    simp only [ok_bind, List.headD_cons, List.length_cons]
    rw [if_neg (by push_cast; omega)]
    simp only [List.drop_succ_cons, List.drop_zero]
    rw [if_neg (by omega)]
    exact bytestringToTextstring_ok hn1 hdata

/-- C8 witness: writing the 1-character string `A` with one register pads
it to `A ` (bytes `41 20`); a 3-character string with one register is
rejected; decoding a 2-byte register range returns it unmodified. -/
theorem C8_write_string_padding_witness :
    write_string 1 .rtu 5 [65] 1 =
      _embedPayload 1 .rtu 16 ([0, 5] ++ [0, 1] ++ [2] ++ [65, 32]) ∧
    write_string 1 .rtu 5 [65, 66, 67] 1 = .error (.strTooLong "input string") ∧
    read_string_decode [2, 65, 32] 1 = .ok [65, 32] := by
  have h := C8_write_string_padding 1 .rtu 5 [65] 1 (by norm_num) (by norm_num)
    (by norm_num) (by norm_num)
  have h2 := C8_write_string_padding 1 .rtu 5 [65, 66, 67] 1 (by norm_num) (by norm_num)
    (by norm_num) (by norm_num)
  refine ⟨?_, h2.2.1 (by simp), ?_⟩
  · rw [(h.1 (by norm_num) (by norm_num)).1]
    decide
  · have hc := h.2.2 [65, 32] (by norm_num)
    simpa using hc

theorem register_scaled_roundtrip_unsigned (v d : Int) (hd : 0 ≤ d)
    (h0 : 0 ≤ v * 10 ^ d.toNat) (h1 : v * 10 ^ d.toNat ≤ 65535) :
    Except.map PyNum.toRat ((_numToTwoByteString (.int v) d false false).bind
      (fun bs => _twoByteStringToNum bs d false)) = .ok ((v : ℚ)) := by
  rw [numToTwoByteString_int_scaled_unsigned v d hd h0 h1, ok_bind_expl,
    twoByteStringToNum_bytes _ _ d false (by omega) (by omega) hd]
  have hu : unpack16 false ((v * 10 ^ d.toNat).toNat / 256) ((v * 10 ^ d.toNat).toNat % 256)
      = v * 10 ^ d.toNat := by
    unfold unpack16
    rw [if_neg (by simp)]
    omega
  by_cases hd0 : d = 0
  · subst hd0
    rw [if_pos rfl]
    simp only [Except.map, PyNum.toRat, hu]
    simp
  · rw [if_neg hd0]
    simp only [Except.map, PyNum.toRat, hu]
    congr 1
    push_cast
    rw [mul_div_assoc, div_self (by positivity), mul_one]

theorem register_scaled_roundtrip_signed (v d : Int) (hd : 0 ≤ d)
    (h0 : -32768 ≤ v * 10 ^ d.toNat) (h1 : v * 10 ^ d.toNat ≤ 32767) :
    Except.map PyNum.toRat ((_numToTwoByteString (.int v) d false true).bind
      (fun bs => _twoByteStringToNum bs d true)) = .ok ((v : ℚ)) := by
  rw [numToTwoByteString_int_scaled_signed v d hd h0 h1, ok_bind_expl,
    twoByteStringToNum_bytes _ _ d true (by omega) (by omega) hd]
  have hu : unpack16 true ((v * 10 ^ d.toNat % 65536).toNat / 256)
      ((v * 10 ^ d.toNat % 65536).toNat % 256) = v * 10 ^ d.toNat := by
    unfold unpack16
    simp only [eq_self_iff_true, true_and]
    split_ifs <;> omega
  by_cases hd0 : d = 0
  · subst hd0
    rw [if_pos rfl]
    simp only [Except.map, PyNum.toRat, hu]
    simp
  · rw [if_neg hd0]
    simp only [Except.map, PyNum.toRat, hu]
    congr 1
    push_cast
    rw [mul_div_assoc, div_self (by positivity), mul_one]

theorem long_roundtrip_unsigned (v : Int) (h0 : 0 ≤ v) (h1 : v ≤ 4294967295) :
    (_longToBytestring v false 2).bind (fun bs => _bytestringToLong bs false 2)
      = .ok v := by
  unfold _longToBytestring
  rw [show _checkInt 2 (some 2) (some 2) "number of registers" = .ok () from by decide,
    show (if false = true then StructFmt.beS32 else StructFmt.beU32) = StructFmt.beU32
      from rfl]
  simp only [ok_bind, _pack]
  rw [if_pos (⟨h0, h1⟩ : 0 ≤ v ∧ v ≤ 4294967295)]
  simp only [ok_bind]
  rw [if_pos (by simp)]
  simp only [pure_eq_ok, ok_bind_expl]
  unfold _bytestringToLong
  rw [checkString_exact_ok _ (by norm_num) (by simp),
    show _checkInt 2 (some 2) (some 2) "number of registers" = .ok () from by decide,
    show (if false = true then StructFmt.beS32 else StructFmt.beU32) = StructFmt.beU32
      from rfl]
  simp only [ok_bind, _unpack]
  rw [if_pos (by refine ⟨by omega, by omega, by omega, by omega⟩)]
  congr 1
  omega

theorem long_roundtrip_signed (v : Int) (h0 : -2147483648 ≤ v) (h1 : v ≤ 2147483647) :
    (_longToBytestring v true 2).bind (fun bs => _bytestringToLong bs true 2)
      = .ok v := by
  unfold _longToBytestring
  rw [show _checkInt 2 (some 2) (some 2) "number of registers" = .ok () from by decide,
    show (if true = true then StructFmt.beS32 else StructFmt.beU32) = StructFmt.beS32
      from rfl]
  simp only [ok_bind, _pack]
  rw [if_pos (⟨h0, h1⟩ : -2147483648 ≤ v ∧ v ≤ 2147483647)]
  simp only [ok_bind]
  rw [if_pos (by simp)]
  simp only [pure_eq_ok, ok_bind_expl]
  unfold _bytestringToLong
  rw [checkString_exact_ok _ (by norm_num) (by simp),
    show _checkInt 2 (some 2) (some 2) "number of registers" = .ok () from by decide,
    show (if true = true then StructFmt.beS32 else StructFmt.beU32) = StructFmt.beS32
      from rfl]
  simp only [ok_bind, _unpack]
  rw [if_pos (by refine ⟨by omega, by omega, by omega, by omega⟩)]
  congr 1
  split_ifs <;> omega

theorem checkValuelist_ok {l : List Int} (h : ∀ v ∈ l, 0 ≤ v ∧ v ≤ 65535) :
    checkValuelist l = .ok () := by
  induction l with
  | nil => rfl
  | cons v t ih =>
      unfold checkValuelist
      have hv := h v (List.mem_cons_self v t)
      rw [checkInt_both_ok _ hv.1 hv.2, ok_bind,
        ih (fun x hx => h x (List.mem_cons_of_mem _ hx))]

theorem valuelistBytes_ok {l : List Int} (h : ∀ v ∈ l, 0 ≤ v ∧ v ≤ 65535) :
    valuelistBytes l = .ok (l.flatMap fun v => [v.toNat / 256, v.toNat % 256]) := by
  induction l with
  | nil => rfl
  | cons v t ih =>
      unfold valuelistBytes
      have hv := h v (List.mem_cons_self v t)
      rw [numToTwoByteString_int_be_unsigned v hv.1 hv.2, ok_bind,
        ih (fun x hx => h x (List.mem_cons_of_mem _ hx)), ok_bind]
      simp

theorem length_registerBytes (l : List Int) :
    (l.flatMap fun v => [v.toNat / 256, v.toNat % 256]).length = 2 * l.length := by
  induction l with
  | nil => rfl
  | cons v t ih =>
      simp only [List.flatMap_cons, List.length_append, List.length_cons, ih]
      simp
      omega

theorem valuesFromBytes_ok {l : List Int} (h : ∀ v ∈ l, 0 ≤ v ∧ v ≤ 65535) :
    valuesFromBytes l.length (l.flatMap fun v => [v.toNat / 256, v.toNat % 256])
      = .ok l := by
  induction l with
  | nil => rfl
  | cons v t ih =>
      have hv := h v (List.mem_cons_self v t)
      simp only [List.flatMap_cons, List.length_cons, List.cons_append, List.nil_append]
      unfold valuesFromBytes
      simp only [List.take_succ_cons, List.take_zero, List.drop_succ_cons, List.drop_zero]
      rw [twoByteStringToNum_bytes _ _ 0 false (by omega) (by omega) (by norm_num)]
      rw [if_pos rfl, ok_bind, ih (fun x hx => h x (List.mem_cons_of_mem _ hx)), ok_bind]
      have hu : unpack16 false (v.toNat / 256) (v.toNat % 256) = v := by
        unfold unpack16
        rw [if_neg (by simp)]
        omega
      simp [hu]

theorem registers_roundtrip {l : List Int} (hne : 1 ≤ l.length)
    (h : ∀ v ∈ l, 0 ≤ v ∧ v ≤ 65535) :
    (_valuelistToBytestring l (l.length : Int)).bind
      (fun bs => _bytestringToValuelist bs (l.length : Int)) = .ok l := by
  unfold _valuelistToBytestring
  rw [checkInt_min_ok _ (by omega), checkValuelist_ok h,
    checkInt_both_ok _ le_rfl le_rfl, valuelistBytes_ok h]
  simp only [ok_bind]
  rw [if_pos (by rw [length_registerBytes]; push_cast; ring)]
  simp only [pure_eq_ok, ok_bind_expl]
  simp only [_bytestringToValuelist]
  rw [checkInt_min_ok _ (by omega),
    checkString_exact_ok _ (by omega) (by rw [length_registerBytes]; push_cast; ring)]
  simp only [ok_bind]
  rw [show ((l.length : Int)).toNat = l.length from Int.toNat_natCast _]
  exact valuesFromBytes_ok h

/-- C4 counterexample: the round-trip fails for the string payload type.
The string `A` is in the valid domain of `write_string` with one register
(1 ≤ length ≤ 2), but decoding its encoding returns the space-padded
string `A ` (bytes `41 20`), not the original `A`. -/
theorem C4_string_roundtrip_false :
    (_textstringToBytestring [65] 1).bind (fun bs => _bytestringToTextstring bs 1)
      = .ok [65, 32] ∧ ([65, 32] : ByteStr) ≠ [65] := by
  constructor
  · decide
  · decide

/-- C4 (amended): decoding the encoding returns exactly the original value
for the register type (integer values whose scaled image fits the selected
16-bit range), the long type, and the register-list type; for the string
type decoding the encoding returns the original right-padded with spaces to
2*numberOfRegisters bytes, which equals the original exactly when it
already has 2*numberOfRegisters characters.  (The float type concerns IEEE
rounding and is out of scope of this statement.) -/
theorem C4_typed_roundtrips :
    (∀ (v d : Int) (signed : Bool), 0 ≤ d →
      (if signed then -32768 ≤ v * 10 ^ d.toNat ∧ v * 10 ^ d.toNat ≤ 32767
       else 0 ≤ v * 10 ^ d.toNat ∧ v * 10 ^ d.toNat ≤ 65535) →
      Except.map PyNum.toRat ((_numToTwoByteString (.int v) d false signed).bind
        (fun bs => _twoByteStringToNum bs d signed)) = .ok ((v : ℚ))) ∧
    (∀ (v : Int) (signed : Bool),
      (if signed then -2147483648 ≤ v ∧ v ≤ 2147483647 else 0 ≤ v ∧ v ≤ 4294967295) →
      (_longToBytestring v signed 2).bind (fun bs => _bytestringToLong bs signed 2)
        = .ok v) ∧
    (∀ (s : ByteStr) (n : Int), 1 ≤ n → 1 ≤ s.length → (s.length : Int) ≤ 2 * n →
      (_textstringToBytestring s n).bind (fun bs => _bytestringToTextstring bs n)
        = .ok (s ++ List.replicate ((2 * n).toNat - s.length) 32)) ∧
    (∀ (s : ByteStr) (n : Int), 1 ≤ n → (s.length : Int) = 2 * n →
      (_textstringToBytestring s n).bind (fun bs => _bytestringToTextstring bs n)
        = .ok s) ∧
    (∀ (l : List Int), 1 ≤ l.length → (∀ v ∈ l, 0 ≤ v ∧ v ≤ 65535) →
      (_valuelistToBytestring l (l.length : Int)).bind
        (fun bs => _bytestringToValuelist bs (l.length : Int)) = .ok l) := by
  refine ⟨fun v d signed hd hr => ?_, fun v signed hr => ?_,
    fun s n hn hs1 hs2 => ?_, fun s n hn hs => ?_, fun l hne h => ?_⟩
  · cases signed with
    | true =>
        rw [if_pos rfl] at hr
        exact register_scaled_roundtrip_signed v d hd hr.1 hr.2
    | false =>
        rw [if_neg Bool.false_ne_true] at hr
        exact register_scaled_roundtrip_unsigned v d hd hr.1 hr.2
  · cases signed with
    | true =>
        rw [if_pos rfl] at hr
        exact long_roundtrip_signed v hr.1 hr.2
    | false =>
        rw [if_neg Bool.false_ne_true] at hr
        exact long_roundtrip_unsigned v hr.1 hr.2
  · rw [textstringToBytestring_ok hn hs1 hs2, ok_bind_expl]
    exact bytestringToTextstring_ok hn (by simp [List.length_replicate]; omega)
  · have hpad := @textstringToBytestring_ok s n hn (by omega) (by omega)
    rw [show (2 * n).toNat - s.length = 0 by omega, List.replicate_zero,
      List.append_nil] at hpad
    rw [hpad, ok_bind_expl]
    exact bytestringToTextstring_ok hn hs
  · exact registers_roundtrip hne h

/-- C4 witness: scaled register 77.0 with one decimal (stored as 770),
unsigned long 4000000000, string `A` padded to `A `, full-capacity string
`AB`, and the register list [1, 65535]. -/
theorem C4_typed_roundtrips_witness :
    Except.map PyNum.toRat ((_numToTwoByteString (.int 77) 1 false false).bind
      (fun bs => _twoByteStringToNum bs 1 false)) = .ok ((77 : ℚ)) ∧
    (_longToBytestring 4000000000 false 2).bind
      (fun bs => _bytestringToLong bs false 2) = .ok 4000000000 ∧
    (_textstringToBytestring [65] 1).bind (fun bs => _bytestringToTextstring bs 1)
      = .ok ([65] ++ List.replicate ((2 * (1 : Int)).toNat - [65].length) 32) ∧
    (_textstringToBytestring [65, 66] 1).bind (fun bs => _bytestringToTextstring bs 1)
      = .ok [65, 66] ∧
    (_valuelistToBytestring [1, 65535] (([1, 65535] : List Int).length : Int)).bind
      (fun bs => _bytestringToValuelist bs (([1, 65535] : List Int).length : Int))
      = .ok [1, 65535] :=
  ⟨C4_typed_roundtrips.1 77 1 false (by norm_num) (by norm_num),
   C4_typed_roundtrips.2.1 4000000000 false (by norm_num),
   C4_typed_roundtrips.2.2.1 [65] 1 (by norm_num) (by norm_num) (by norm_num),
   C4_typed_roundtrips.2.2.2.1 [65, 66] 1 (by norm_num) (by norm_num),
   C4_typed_roundtrips.2.2.2.2 [1, 65535] (by norm_num) (by decide)⟩

/-- C6 witness: address 1, function code 3, RTU mode; second byte 0x83
(device exception) and second byte 5 (plain mismatch). -/
theorem C6_device_exception_error_witness :
    ((0x83 : Nat) = _setBitOn (Int.toNat 3) 7 →
      _extractPayload (wellFormedFrame .rtu [1, 0x83, 2]) 1 .rtu 3
        = .error .slaveReportsError) ∧
    ((0x83 : Nat) ≠ _setBitOn (Int.toNat 3) 7 → ((0x83 : Nat) : Int) ≠ 3 →
      _extractPayload (wellFormedFrame .rtu [1, 0x83, 2]) 1 .rtu 3
        = .error .wrongFunctioncodeInResponse) ∧
    Err.slaveReportsError ≠ Err.wrongFunctioncodeInResponse :=
  C6_device_exception_error 1 3 0x83 [2] .rtu (by norm_num) (by norm_num)
    (by norm_num) (by norm_num) (by norm_num) (by decide)

theorem constructInstrument_lookup_preserved (st : PortState) (q p : String) (c : Nat)
    (h : lookupPort st.registry p = some c) :
    lookupPort (constructInstrument st q).1.registry p = some c := by
  unfold constructInstrument
  cases hq : lookupPort st.registry q with
  | some d => exact h
  | none =>
      show (if q = p then some st.nextConn else lookupPort st.registry p) = some c
      have hne : q ≠ p := by
        intro he
        rw [he, h] at hq
        exact Option.noConfusion hq
      rw [if_neg hne]
      exact h

theorem constructInstrument_self_lookup (st : PortState) (p : String) :
    lookupPort (constructInstrument st p).1.registry p
      = some (constructInstrument st p).2 := by
  unfold constructInstrument
  cases hq : lookupPort st.registry p with
  | some d => exact hq
  | none =>
      show (if p = p then some st.nextConn else lookupPort st.registry p)
        = some st.nextConn
      rw [if_pos rfl]

theorem finalPortState_lookup_preserved (ps : List String) (st : PortState)
    (p : String) (c : Nat) (h : lookupPort st.registry p = some c) :
    lookupPort (finalPortState st ps).registry p = some c := by
  induction ps generalizing st with
  | nil => exact h
  | cons q t ih => exact ih _ (constructInstrument_lookup_preserved st q p c h)

theorem mem_runConstructions_lookup (ps : List String) (st : PortState)
    (p : String) (c : Nat) (h : (p, c) ∈ runConstructions st ps) :
    lookupPort (finalPortState st ps).registry p = some c := by
  induction ps generalizing st with
  | nil => exact absurd h (List.not_mem_nil _)
  | cons q t ih =>
      simp only [runConstructions] at h
      rcases List.mem_cons.mp h with he | ht
      · rw [Prod.mk.injEq] at he
        obtain ⟨hp, hc⟩ := he
        subst hp
        subst hc
        show lookupPort (finalPortState (constructInstrument st p).1 t).registry p = _
        exact finalPortState_lookup_preserved t _ p _ (constructInstrument_self_lookup st p)
      · show lookupPort (finalPortState (constructInstrument st q).1 t).registry p = some c
        exact ih _ ht

/-- C9: across every sequence of `Instrument` constructions starting from the
empty `_SERIALPORTS` registry, each port name is mapped to at most one
connection object: any two constructions naming the same port are assigned
the same connection.  Moreover a construction for an already registered port
returns the registered connection and leaves the state unchanged, while the
first construction for a port registers a fresh connection. -/
theorem C9_port_registry_unique :
    (∀ (ps : List String) (p : String) (c₁ c₂ : Nat),
      (p, c₁) ∈ runConstructions initialPortState ps →
      (p, c₂) ∈ runConstructions initialPortState ps → c₁ = c₂) ∧
    (∀ (st : PortState) (p : String) (c : Nat),
      lookupPort st.registry p = some c → constructInstrument st p = (st, c)) ∧
    (∀ (st : PortState) (p : String),
      lookupPort st.registry p = none →
      constructInstrument st p =
        (⟨(p, st.nextConn) :: st.registry, st.nextConn + 1⟩, st.nextConn)) := by
  refine ⟨fun ps p c₁ c₂ h₁ h₂ => ?_, fun st p c h => ?_, fun st p h => ?_⟩
  · have k₁ := mem_runConstructions_lookup ps initialPortState p c₁ h₁
    have k₂ := mem_runConstructions_lookup ps initialPortState p c₂ h₂
    rw [k₁] at k₂
    exact Option.some.inj k₂
  · unfold constructInstrument
    rw [h]
  · unfold constructInstrument
    rw [h]

/-- C9 witness: constructing on ports `a`, `b`, `a` from the empty registry
assigns connections 0, 1 and again 0; the theorem's uniqueness part applied
to the two occurrences of port `a` gives `0 = 0`, its reuse part applied to
the registry `[(a, 0)]` returns the registered connection 0 without change,
and its registration part applied to the empty registry creates connection 0. -/
theorem C9_port_registry_unique_witness :
    runConstructions initialPortState ["a", "b", "a"]
        = [("a", 0), ("b", 1), ("a", 0)] ∧
    (0 : Nat) = 0 ∧
    constructInstrument ⟨[("a", 0)], 1⟩ "a" = (⟨[("a", 0)], 1⟩, 0) ∧
    constructInstrument initialPortState "a" = (⟨[("a", 0)], 1⟩, 0) :=
  ⟨by decide,
   C9_port_registry_unique.1 ["a", "b", "a"] "a" 0 0 (by decide) (by decide),
   C9_port_registry_unique.2.1 ⟨[("a", 0)], 1⟩ "a" 0 (by decide),
   C9_port_registry_unique.2.2 initialPortState "a" (by decide)⟩

end Minimalmodbus
